import Mathlib

/-!
Verification development for the PDB header parser
(`Bio/PDB/parse_pdb_header.py`).

The Python source is shallowly embedded: every function of the source file
is translated into an executable Lean definition operating on `String`
(internally `List Char`).  Python exceptions (`ValueError`, `IndexError`,
`KeyError`, `TypeError`, `AssertionError`) are modelled with `Except PyErr`;
Python floats are modelled as exact rationals (adequate for the finite
decimal literals that occur in the statements below); Python dictionaries
are modelled as insertion-ordered association lists.
-/

/-- Python exception model: the exception kinds that can escape the parser. -/
inductive PyErr where
  | valueError : String → PyErr
  | indexError : PyErr
  | keyError : String → PyErr
  | typeError : String → PyErr
  | assertionError : PyErr
deriving DecidableEq, Repr

/-- Python `str.isspace` characters (ASCII fragment): space, tab, newline,
vertical tab, form feed, carriage return.  This is the class matched by the
regex `\s` for the ASCII inputs in scope. -/
def isPySpace (c : Char) : Bool :=
  c.toNat = 32 || c.toNat = 9 || c.toNat = 10 || c.toNat = 11 ||
  c.toNat = 12 || c.toNat = 13

/-- ASCII decimal digit, the regex class `\d`. -/
def isDigitC (c : Char) : Bool := 48 ≤ c.toNat && c.toNat ≤ 57

/-- ASCII uppercase letter `A`-`Z`. -/
def isUpperC (c : Char) : Bool := 65 ≤ c.toNat && c.toNat ≤ 90

/-- ASCII lowercase letter `a`-`z`. -/
def isLowerC (c : Char) : Bool := 97 ≤ c.toNat && c.toNat ≤ 122

/-- ASCII letter. -/
def isAlphaC (c : Char) : Bool := isUpperC c || isLowerC c

/-- ASCII letter or digit, the regex class `[A-Za-z0-9]`. -/
def isAlnumC (c : Char) : Bool := isAlphaC c || isDigitC c

/-- Regex word character `\w` (ASCII fragment): letter, digit or underscore. -/
def isWordC (c : Char) : Bool := isAlnumC c || c.toNat = 95

/-- Python `str.lower` on a single ASCII character. -/
def pyLowerChar (c : Char) : Char :=
  if isUpperC c then Char.ofNat (c.toNat + 32) else c

/-- Python `str.upper` on a single ASCII character. -/
def pyUpperChar (c : Char) : Char :=
  if isLowerC c then Char.ofNat (c.toNat - 32) else c

/-- Python `str.lower`. -/
def pyLower (s : String) : String := ⟨s.data.map pyLowerChar⟩

/-- Strip leading and trailing Python whitespace from a character list. -/
def stripL (cs : List Char) : List Char :=
  ((cs.dropWhile (isPySpace ·)).reverse.dropWhile (isPySpace ·)).reverse

/-- Python `str.strip()`. -/
def pyStrip (s : String) : String := ⟨stripL s.data⟩

/-- Python trailing-whitespace removal; used for the driver's
`re.sub(r"[\s\n\r]*\Z", "", hh)` whose character class is exactly `\s`. -/
def pyRstrip (s : String) : String :=
  ⟨(s.data.reverse.dropWhile (isPySpace ·)).reverse⟩

/-- Python slice `s[a:b]` with nonnegative bounds (clamping, never raising). -/
def pySlice (s : String) (a b : Nat) : String := ⟨(s.data.drop a).take (b - a)⟩

/-- Python slice `s[a:]`. -/
def pyDrop (s : String) (a : Nat) : String := ⟨s.data.drop a⟩

/-- Python slice `s[:b]`. -/
def pyTake (s : String) (b : Nat) : String := ⟨s.data.take b⟩

/-- Python single-character index `s[i]` for nonnegative `i`; raises
`IndexError` when out of range. -/
def pyIndex (s : String) (i : Nat) : Except PyErr Char :=
  match s.data.drop i with
  | [] => .error .indexError
  | c :: _ => .ok c

/-- Numeric value of a digit string (no sign). -/
def digitsValN (cs : List Char) : Nat :=
  cs.foldl (fun a c => 10 * a + (c.toNat - 48)) 0

/-- Helper for `pyInt`: an unsigned run of one or more digits. -/
def intDigits (cs : List Char) (orig : String) : Except PyErr Int :=
  if !cs.isEmpty && cs.all (isDigitC ·) then .ok (digitsValN cs : Int)
  else .error (.valueError orig)

/-- Python `int(s)` on a string: surrounding whitespace allowed, optional
sign, one or more decimal digits; `ValueError` otherwise.  (Underscore
digit separators, accepted by CPython, do not occur in the fixed-column
inputs in scope and are rejected here.) -/
def pyInt (s : String) : Except PyErr Int :=
  match stripL s.data with
  | '+' :: rest => intDigits rest s
  | '-' :: rest => (intDigits rest s).map Neg.neg
  | cs => intDigits cs s

/-- Exact model of the Python float values produced by this parser: a
decimal fraction `num / den` with `den` a power of ten, kept in the
canonical form in which `num` is not a multiple of ten unless `den` is one.
Every float the source computes comes from `float(...)` on a decimal
literal, and distinct canonical forms denote distinct values, so decidable
equality on this type is Python float equality for the values in scope. -/
structure PyFloat where
  num : Int
  den : Nat
deriving DecidableEq, Repr

/-- Canonicalize a decimal fraction by stripping common factors of ten. -/
def pyFloatCanon : Nat → Int → Nat → PyFloat
  | 0, num, den => ⟨num, den⟩
  | fuel+1, num, den =>
    if den > 1 && num % 10 = 0 then pyFloatCanon fuel (num / 10) (den / 10)
    else ⟨num, den⟩

/-- Build the canonical `PyFloat` from a numerator and a power-of-ten
denominator exponent. -/
def mkPyFloat (num : Int) (denExp : Nat) : PyFloat :=
  pyFloatCanon denExp num (10 ^ denExp)

/-- Positivity of a `PyFloat` (`den` is always positive). -/
def PyFloat.isPos (q : PyFloat) : Bool := 0 < q.num

/-- Helper for `pyFloat`: parse an optional exponent part and require the
end of the string. -/
def floatExp (cs : List Char) (orig : String) : Except PyErr Int :=
  match cs with
  | [] => .ok 0
  | 'e' :: r | 'E' :: r =>
    let (sgn, r') : Int × List Char :=
      match r with
      | '+' :: t => (1, t)
      | '-' :: t => (-1, t)
      | t => (1, t)
    if !r'.isEmpty && r'.all (isDigitC ·) then .ok (sgn * (digitsValN r' : Int))
    else .error (.valueError orig)
  | _ => .error (.valueError orig)

/-- Assemble a signed decimal with fractional digits and exponent into a
canonical `PyFloat`:
`sgn * (ipDigits.fpDigits) * 10^e` as an exact fraction. -/
def assembleFloat (sgn : Int) (ip fp : List Char) (e : Int) : PyFloat :=
  let mant : Int := sgn * ((digitsValN ip : Int) * (10 ^ fp.length : Nat) +
    (digitsValN fp : Int))
  if 0 ≤ e then mkPyFloat (mant * ((10 ^ e.toNat : Nat) : Int)) fp.length
  else mkPyFloat mant (fp.length + (-e).toNat)

/-- Python `float(s)` restricted to finite decimal literals, returning an
exact decimal fraction: surrounding whitespace, optional sign, digits with
optional fractional part, optional exponent.  (`inf`/`nan` spellings are
not representable in the exact model and are rejected.) -/
def pyFloat (s : String) : Except PyErr PyFloat :=
  let cs := stripL s.data
  let (sgn, cs₁) : Int × List Char :=
    match cs with
    | '+' :: t => (1, t)
    | '-' :: t => (-1, t)
    | t => (1, t)
  let ip := cs₁.takeWhile (isDigitC ·)
  let rest₁ := cs₁.dropWhile (isDigitC ·)
  match rest₁ with
  | '.' :: r2 =>
    let fp := r2.takeWhile (isDigitC ·)
    let rest₂ := r2.dropWhile (isDigitC ·)
    if ip.isEmpty && fp.isEmpty then .error (.valueError s)
    else (floatExp rest₂ s).map (fun e => assembleFloat sgn ip fp e)
  | _ =>
    if ip.isEmpty then .error (.valueError s)
    else (floatExp rest₁ s).map (fun e => assembleFloat sgn ip [] e)

/-- Ordered association-list lookup, modelling `d[k]` read access that
yields `None`-free `Option`. -/
def aget {α : Type} (d : List (String × α)) (k : String) : Option α :=
  match d with
  | [] => none
  | (k', v) :: rest => if k' = k then some v else aget rest k

/-- Ordered association-list lookup modelling `d[k]`: raises `KeyError`
when the key is missing, as Python does. -/
def agetE {α : Type} (d : List (String × α)) (k : String) : Except PyErr α :=
  match aget d k with
  | some v => .ok v
  | none => .error (.keyError k)

/-- Ordered association-list update modelling `d[k] = v`: replaces in place
when the key exists, else appends (Python dicts preserve insertion order). -/
def aset {α : Type} (d : List (String × α)) (k : String) (v : α) :
    List (String × α) :=
  match d with
  | [] => [(k, v)]
  | (k', v') :: rest =>
    if k' = k then (k, v) :: rest else (k', v') :: aset rest k v

/-- List-of-characters version of `String.startsWith` (for Python
`str.startswith` and anchored regex searches). -/
def startsWithL : List Char → List Char → Bool
  | [], _ => true
  | _ :: _, [] => false
  | p :: ps, c :: cs => p = c && startsWithL ps cs

/-- Python `str.startswith`. -/
def pyStartsWith (s p : String) : Bool := startsWithL p.data s.data

/-- Generic left-to-right scan used to model `re.search`: try the matcher at
every start position, leftmost match wins. -/
def searchGo {α : Type} : Nat → List Char → (List Char → Option α) → Option α
  | _, [], p => p []
  | 0, cs, p => p cs
  | fuel+1, cs@(_ :: rest), p =>
    match p cs with
    | some r => some r
    | none => searchGo fuel rest p

/-- Generic suffix substitution used to model `re.sub(pat, "", s)` for
patterns anchored with a trailing end-of-string: cut the string at the
leftmost position whose suffix satisfies the predicate. -/
def subSuffixGo : Nat → List Char → (List Char → Bool) → List Char
  | _, [], _ => []
  | 0, cs, _ => cs
  | fuel+1, cs@(c :: rest), p =>
    if p cs then [] else c :: subSuffixGo fuel rest p

/-- Generic replace-all-with-empty used to model `re.sub(pat, "", s)` for
unanchored patterns: the matcher returns the remainder after a match;
matches are consumed left to right, non-overlapping. -/
def replaceMatchesGo : Nat → List Char → (List Char → Option (List Char)) → List Char
  | _, [], _ => []
  | 0, cs, _ => cs
  | fuel+1, cs@(c :: rest), m =>
    match m cs with
    | some rem => replaceMatchesGo fuel rem m
    | none => c :: replaceMatchesGo fuel rest m

/-- Collapse every run of two or more whitespace characters to a single
space: the source's `re.sub(r"\s\s+", " ", s)`. -/
def collapseWsGo : Nat → List Char → List Char
  | _, [] => []
  | 0, cs => cs
  | fuel+1, c :: rest =>
    if isPySpace c && (match rest with | r :: _ => isPySpace r | [] => false) then
      ' ' :: collapseWsGo fuel (rest.dropWhile (isPySpace ·))
    else c :: collapseWsGo fuel rest

/-- The source's whitespace-collapsing substitution `re.sub(r"\s\s+", " ", s)`. -/
def collapseWs (s : String) : String := ⟨collapseWsGo s.data.length s.data⟩

/-- Does this suffix match `\s\s\s\s+[\w]{4}.\s+\d*\Z`?  The classes `\s`
and `\w` are disjoint, so the greedy runs are the maximal ones. -/
def chopCodesSuffix (cs : List Char) : Bool :=
  let ws := cs.takeWhile (isPySpace ·)
  let r1 := cs.dropWhile (isPySpace ·)
  if ws.length < 4 then false
  else
    match r1 with
    | w1 :: w2 :: w3 :: w4 :: _x :: r2 =>
      isWordC w1 && isWordC w2 && isWordC w3 && isWordC w4 &&
      (let ws2 := r2.takeWhile (isPySpace ·)
       !ws2.isEmpty && (r2.dropWhile (isPySpace ·)).all (isDigitC ·))
    | _ => false

/-- Source `_chop_end_codes`:
`re.sub(r"\s\s\s\s+[\w]{4}.\s+\d*\Z", "", line)`. -/
def _chop_end_codes (line : String) : String :=
  ⟨subSuffixGo line.data.length line.data chopCodesSuffix⟩

/-- Character class `[1-9]`. -/
def isOneNine (c : Char) : Bool := 49 ≤ c.toNat && c.toNat ≤ 57

/-- Character class `[0-9A-Z]`. -/
def isDigUp (c : Char) : Bool := isDigitC c || isUpperC c

/-- Does this suffix match `\s+\d\d-\w\w\w-\d\d\s+[1-9][0-9A-Z]{3}\s*\Z`? -/
def chopMiscSuffix (cs : List Char) : Bool :=
  let ws := cs.takeWhile (isPySpace ·)
  let r1 := cs.dropWhile (isPySpace ·)
  if ws.isEmpty then false
  else
    match r1 with
    | d1 :: d2 :: '-' :: w1 :: w2 :: w3 :: '-' :: d3 :: d4 :: r2 =>
      isDigitC d1 && isDigitC d2 && isWordC w1 && isWordC w2 && isWordC w3 &&
      isDigitC d3 && isDigitC d4 &&
      (let ws2 := r2.takeWhile (isPySpace ·)
       let r3 := r2.dropWhile (isPySpace ·)
       !ws2.isEmpty &&
       (match r3 with
        | a :: b :: c :: d :: r4 =>
          isOneNine a && isDigUp b && isDigUp c && isDigUp d &&
          r4.all (isPySpace ·)
        | _ => false))
    | _ => false

/-- Source `_chop_end_misc`:
`re.sub(r"\s+\d\d-\w\w\w-\d\d\s+[1-9][0-9A-Z]{3}\s*\Z", "", line)`. -/
def _chop_end_misc (line : String) : String :=
  ⟨subSuffixGo line.data.length line.data chopMiscSuffix⟩

/-- Matcher for the date token `\d\d-\w\w\w-\d\d` at the current position. -/
def dateAt : List Char → Option (List Char)
  | d1 :: d2 :: '-' :: w1 :: w2 :: w3 :: '-' :: d3 :: d4 :: _ =>
    if isDigitC d1 && isDigitC d2 && isWordC w1 && isWordC w2 && isWordC w3 &&
       isDigitC d3 && isDigitC d4 then
      some [d1, d2, '-', w1, w2, w3, '-', d3, d4]
    else none
  | _ => none

/-- The driver's `re.search(r"\d\d-\w\w\w-\d\d", tail)`, returning the
matched nine-character token. -/
def searchDate (s : String) : Option String :=
  (searchGo s.data.length s.data dateAt).map (fun cs => ⟨cs⟩)

/-- Matcher for `\s+([1-9][0-9A-Z]{3})\s*\Z` at the current position,
returning group 1. -/
def idcodeAt (cs : List Char) : Option (List Char) :=
  let ws := cs.takeWhile (isPySpace ·)
  let r1 := cs.dropWhile (isPySpace ·)
  if ws.isEmpty then none
  else
    match r1 with
    | a :: b :: c :: d :: r2 =>
      if isOneNine a && isDigUp b && isDigUp c && isDigUp d &&
         r2.all (isPySpace ·) then
        some [a, b, c, d]
      else none
    | _ => none

/-- The driver's `re.search(r"\s+([1-9][0-9A-Z]{3})\s*\Z", tail)`. -/
def searchIdcode (s : String) : Option String :=
  (searchGo s.data.length s.data idcodeAt).map (fun cs => ⟨cs⟩)

/-- Does this suffix match `\;\s*\Z`? -/
def semiSuffix : List Char → Bool
  | ';' :: rest => rest.all (isPySpace ·)
  | _ => false

/-- The COMPND/SOURCE substitution `re.sub(r"\;\s*\Z", "", x)`. -/
def stripSemiEnd (s : String) : String :=
  ⟨subSuffixGo s.data.length s.data semiSuffix⟩

/-- Matcher for the enzyme-commission pattern `\d+\.\d+\.\d+\.\d+` at the
current position, returning the matched text (final digit run greedy). -/
def ecAt (cs : List Char) : Option (List Char) :=
  let d1 := cs.takeWhile (isDigitC ·)
  let r1 := cs.dropWhile (isDigitC ·)
  if d1.isEmpty then none
  else
    match r1 with
    | '.' :: r2 =>
      let d2 := r2.takeWhile (isDigitC ·)
      let r3 := r2.dropWhile (isDigitC ·)
      if d2.isEmpty then none
      else
        match r3 with
        | '.' :: r4 =>
          let d3 := r4.takeWhile (isDigitC ·)
          let r5 := r4.dropWhile (isDigitC ·)
          if d3.isEmpty then none
          else
            match r5 with
            | '.' :: r6 =>
              let d4 := r6.takeWhile (isDigitC ·)
              if d4.isEmpty then none
              else some (d1 ++ '.' :: d2 ++ '.' :: d3 ++ '.' :: d4)
            | _ => none
        | _ => none
    | _ => none

/-- The COMPND search `re.search(r"\d+\.\d+\.\d+\.\d+", tt)`. -/
def searchEC (s : String) : Option String :=
  (searchGo s.data.length s.data ecAt).map (fun cs => ⟨cs⟩)

/-- Skip zero or more copies of the literal `e.c.` (the starred group
`(e\.c\.)*`; maximal munch is faithful because `\d` cannot match `e`). -/
def skipEC : Nat → List Char → List Char
  | 0, cs => cs
  | fuel+1, cs =>
    if startsWithL ['e', '.', 'c', '.'] cs then skipEC fuel (cs.drop 4) else cs

/-- Remainder after the dotted-quad `\d+\.\d+\.\d+\.\d+` at the current
position, if it matches. -/
def ecCore (cs : List Char) : Option (List Char) :=
  let d1 := cs.takeWhile (isDigitC ·)
  let r1 := cs.dropWhile (isDigitC ·)
  if d1.isEmpty then none
  else
    match r1 with
    | '.' :: r2 =>
      let d2 := r2.takeWhile (isDigitC ·)
      let r3 := r2.dropWhile (isDigitC ·)
      if d2.isEmpty then none
      else
        match r3 with
        | '.' :: r4 =>
          let d3 := r4.takeWhile (isDigitC ·)
          let r5 := r4.dropWhile (isDigitC ·)
          if d3.isEmpty then none
          else
            match r5 with
            | '.' :: r6 =>
              let d4 := r6.takeWhile (isDigitC ·)
              if d4.isEmpty then none else some (r6.dropWhile (isDigitC ·))
            | _ => none
        | _ => none
    | _ => none

/-- Matcher for `\((e\.c\.)*\d+\.\d+\.\d+\.\d+\)` at the current position,
returning the remainder after the match. -/
def ecParenAt (cs : List Char) : Option (List Char) :=
  match cs with
  | '(' :: r1 =>
    match ecCore (skipEC r1.length r1) with
    | some (')' :: rem) => some rem
    | _ => none
  | _ => none

/-- The COMPND substitution
`re.sub(r"\((e\.c\.)*\d+\.\d+\.\d+\.\d+\)", "", tt)`. -/
def removeECParen (s : String) : String :=
  ⟨replaceMatchesGo s.data.length s.data ecParenAt⟩

/-- The literal part of the resolution pattern `REMARK   2 RESOLUTION.`
(the final unescaped dot is a one-character wildcard). -/
def resolutionLit : List Char := "REMARK   2 RESOLUTION".data

/-- Matcher for `REMARK   2 RESOLUTION.` at the current position, returning
the remainder after the match. -/
def resolutionAt (cs : List Char) : Option (List Char) :=
  if startsWithL resolutionLit cs then
    match cs.drop 21 with
    | _ :: rem => some rem
    | [] => none
  else none

/-- The REMARK dispatch test `re.search("REMARK   2 RESOLUTION.", hh)`. -/
def hasResolutionLit (s : String) : Bool :=
  (searchGo s.data.length s.data
    (fun cs => (resolutionAt cs).map (fun _ => ()))).isSome

/-- The substitution `re.sub("REMARK   2 RESOLUTION.", "", hh)`. -/
def removeResolutionLit (s : String) : String :=
  ⟨replaceMatchesGo s.data.length s.data resolutionAt⟩

/-- Does this suffix start a match of `\s+ANGSTROM` (the pattern
`\s+ANGSTROM.*` then swallows the rest of the line)? -/
def angstromSuffix (cs : List Char) : Bool :=
  !(cs.takeWhile (isPySpace ·)).isEmpty &&
  startsWithL "ANGSTROM".data (cs.dropWhile (isPySpace ·))

/-- The substitution `re.sub(r"\s+ANGSTROM.*", "", r)`. -/
def removeAngstrom (s : String) : String :=
  ⟨subSuffixGo s.data.length s.data angstromSuffix⟩

/-- Does this suffix match `\s\s\s\s\s\s\s.*\Z` (seven whitespace
characters, then anything to the end)? -/
def run7Suffix : List Char → Bool
  | a :: b :: c :: d :: e :: f :: g :: _ =>
    isPySpace a && isPySpace b && isPySpace c && isPySpace d &&
    isPySpace e && isPySpace f && isPySpace g
  | _ => false

/-- The EXPDTA substitution `re.sub(r"\s\s\s\s\s\s\s.*\Z", "", expd)`. -/
def trimRun7 (s : String) : String :=
  ⟨subSuffixGo s.data.length s.data run7Suffix⟩

/-- Splitting helper for Python `str.split(sep)` with a literal separator. -/
def splitOnGo : Nat → List Char → List Char → List Char → List (List Char)
  | _, _, [], acc => [acc.reverse]
  | 0, _, cs, acc => [acc.reverse ++ cs]
  | fuel+1, sep, cs@(c :: rest), acc =>
    if startsWithL sep cs then
      acc.reverse :: splitOnGo fuel sep (cs.drop sep.length) []
    else splitOnGo fuel sep rest (c :: acc)

/-- Python `s.split(sep)` for a nonempty literal separator. -/
def pySplitOn (s sep : String) : List String :=
  (splitOnGo s.data.length sep.data s.data []).map (fun cs => ⟨cs⟩)

/-- Splitting helper for whitespace splitting. -/
def splitWsGo : Nat → List Char → List (List Char)
  | 0, _ => []
  | fuel+1, cs =>
    match cs.dropWhile (isPySpace ·) with
    | [] => []
    | cs' =>
      cs'.takeWhile (fun c => !isPySpace c) ::
        splitWsGo fuel (cs'.dropWhile (fun c => !isPySpace c))

/-- Python `s.split()` with no argument: split on whitespace runs, no empty
fields. -/
def pySplitWs (s : String) : List String :=
  (splitWsGo s.data.length s.data).map (fun cs => ⟨cs⟩)

/-- Python `s.replace(lit, "")` for a nonempty literal, removing every
occurrence left to right. -/
def pyReplaceEmpty (s lit : String) : String :=
  ⟨replaceMatchesGo s.data.length s.data
    (fun cs => if startsWithL lit.data cs then some (cs.drop lit.data.length)
               else none)⟩

/-- Membership in the `_nice_case` separator set `" .,;:\t-_"`. -/
def isSepC (c : Char) : Bool :=
  c = ' ' || c = '.' || c = ',' || c = ';' || c = ':' || c = '\t' ||
  c = '-' || c = '_'

/-- Source `_nice_case` loop: capitalize after separators, over the
lowercased input; the running flag is `nextCap`. -/
def niceCaseAux : Bool → List Char → List Char
  | _, [] => []
  | cap, c :: rest =>
    if isLowerC c && cap then pyUpperChar c :: niceCaseAux false rest
    else if isSepC c then c :: niceCaseAux true rest
    else c :: niceCaseAux cap rest

/-- Source `_nice_case`. -/
def _nice_case (line : String) : String :=
  ⟨niceCaseAux true (line.data.map pyLowerChar)⟩

/-- Python `list.index`: position of the first occurrence, `ValueError` when
absent. -/
def listIndex : List String → String → Except PyErr Nat
  | [], x => .error (.valueError x)
  | y :: rest, x => if y = x then .ok 0 else (listIndex rest x).map (· + 1)

/-- The month-name table of `_format_date`. -/
def all_months : List String :=
  ["xxx", "Jan", "Feb", "Mar", "Apr", "May", "Jun", "Jul", "Aug", "Sep",
   "Oct", "Nov", "Dec"]

/-- Python `str(n)` for an integer. -/
def intStr (n : Int) : String :=
  if n < 0 then "-" ++ Nat.repr (-n).toNat else Nat.repr n.toNat

/-- Source `_format_date`: convert `DD-Mon-YY` to `YYYY-MM-DD`; raises
`ValueError` (propagated) when the two-digit year is not an integer or the
month abbreviation is not in the table. -/
def _format_date (pdb_date : String) : Except PyErr String := do
  let year ← pyInt (pyDrop pdb_date 7)
  let century : Int := if year < 50 then 2000 else 1900
  let idx ← listIndex all_months (pySlice pdb_date 3 6)
  let month := Nat.repr idx
  let month := if month.length = 1 then "0" ++ month else month
  pure (intStr (century + year) ++ "-" ++ month ++ "-" ++ pyTake pdb_date 2)

/-- Source `_get_journal`: concatenate columns 19-72 of every `JRNL` line,
lowercased, then collapse whitespace runs. -/
def _get_journal (inl : List String) : String :=
  collapseWs ⟨inl.foldl
    (fun acc l =>
      if pyStartsWith l "JRNL" then acc ++ (pyLower (pySlice l 19 72)).data
      else acc)
    []⟩

/-- One step of the `_get_references` accumulation loop. -/
def refsStep (st : List String × String) (l : String) : List String × String :=
  let refs := st.1
  let actref := st.2
  if pyStartsWith l "REMARK   1" then
    if pyStartsWith l "REMARK   1 REFERENCE" then
      if actref ≠ "" then
        let a := collapseWs actref
        (if a ≠ " " then refs ++ [a] else refs, "")
      else (refs, actref)
    else (refs, actref ++ pyLower (pySlice l 19 72))
  else (refs, actref)

/-- Source `_get_references`: collect one normalized string per
`REMARK   1 REFERENCE` block. -/
def _get_references (inl : List String) : List String :=
  let st := inl.foldl refsStep ([], "")
  if st.2 ≠ "" then
    let a := collapseWs st.2
    if a ≠ " " then st.1 ++ [a] else st.1
  else st.1

/-- Missing-residue descriptor produced by `_parse_remark_465`. -/
structure Residue465 where
  model : Option Int
  res_name : String
  chain : Char
  ssseq : Int
  insertion : Option Char
deriving DecidableEq, Repr

/-- Tail of the REMARK 465 pattern after group 1:
`\s([A-Za-z0-9])\s+(-?\d+[A-Za-z]?)$`.  Returns groups 2 and 3. -/
def rem465Cont (rest : List Char) : Option (Char × List Char) :=
  match rest with
  | sp :: ch :: rest2 =>
    if isPySpace sp && isAlnumC ch then
      let ws := rest2.takeWhile (isPySpace ·)
      let r3 := rest2.dropWhile (isPySpace ·)
      if ws.isEmpty then none
      else
        let (neg, r4) : Bool × List Char :=
          match r3 with
          | '-' :: t => (true, t)
          | t => (false, t)
        let ds := r4.takeWhile (isDigitC ·)
        let r5 := r4.dropWhile (isDigitC ·)
        if ds.isEmpty then none
        else
          match r5 with
          | [] => some (ch, (if neg then ['-'] else []) ++ ds)
          | [l] =>
            if isAlphaC l then
              some (ch, (if neg then ['-'] else []) ++ ds ++ [l])
            else none
          | _ => none
    else none
  | _ => none

/-- First alternative of REMARK 465 group 1, `\d+\s[\sA-Z][\sA-Z][A-Z]`,
followed by the continuation.  The greedy `\d+` needs no backtracking
because `\s` cannot match a digit. -/
def alt1_465 (cs : List Char) : Option (List Char × Char × List Char) :=
  let ds := cs.takeWhile (isDigitC ·)
  let r1 := cs.dropWhile (isDigitC ·)
  if ds.isEmpty then none
  else
    match r1 with
    | s1 :: c1 :: c2 :: c3 :: rest =>
      if isPySpace s1 && (isPySpace c1 || isUpperC c1) &&
         (isPySpace c2 || isUpperC c2) && isUpperC c3 then
        (rem465Cont rest).map (fun g => (ds ++ s1 :: [c1, c2, c3], g.1, g.2))
      else none
    | _ => none

/-- Second alternative of REMARK 465 group 1 with exactly `k` uppercase
letters, followed by the continuation. -/
def alt2_465 (cs : List Char) (k : Nat) : Option (List Char × Char × List Char) :=
  let g1 := cs.take k
  if g1.length = k && g1.all (isUpperC ·) then
    (rem465Cont (cs.drop k)).map (fun g => (g1, g.1, g.2))
  else none

/-- Anchored match of the REMARK 465 pattern
`(\d+\s[\sA-Z][\sA-Z][A-Z]|[A-Z]{1,3})\s([A-Za-z0-9])\s+(-?\d+[A-Za-z]?)$`
with the backtracking order of the `re` engine: first alternative first,
then `[A-Z]{1,3}` greedily from three letters down to one. -/
def match465 (cs : List Char) : Option (List Char × Char × List Char) :=
  match alt1_465 cs with
  | some r => some r
  | none =>
    match alt2_465 cs 3 with
    | some r => some r
    | none =>
      match alt2_465 cs 2 with
      | some r => some r
      | none => alt2_465 cs 1

/-- Source `_parse_remark_465`: parse one stripped missing-residue token.
`None` (no result) is `Option.none`; the initial `assert` is modelled as a
potential `AssertionError`. -/
def _parse_remark_465 (line : String) : Except PyErr (Option Residue465) :=
  if (match line.data with
      | [] => false
      | c :: _ =>
        !(c ≠ ' ' &&
          (match line.data.getLast? with
           | some l => l ≠ '\n' && l ≠ ' '
           | none => true))) then
    .error .assertionError
  else
    match match465 line.data with
    | none => .ok none
    | some (g1, g2, g3) => do
      let mr ←
        (if g1.contains ' ' then
          match pySplitWs ⟨g1⟩ with
          | [m, r] => (pyInt m).map (fun n => ((some n : Option Int), r))
          | _ => .error (.valueError "unpack")
        else pure ((none : Option Int), (⟨g1⟩ : String)))
      match pyInt ⟨g3⟩ with
      | .ok n => pure (some ⟨mr.1, mr.2, g2, n, none⟩)
      | .error _ =>
        match g3.getLast? with
        | none => .error .indexError
        | some ins => do
          let n ← pyInt ⟨g3.dropLast⟩
          pure (some ⟨mr.1, mr.2, g2, n, some ins⟩)

/-- Helix descriptor (one per HELIX line). -/
structure Helix where
  serial_number : Int
  helix_id : String
  initial_residue_name : String
  chain_id : Char
  initial_sequence_number : Int
  initial_insertation_code : Char
  terminal_residue_name : String
  terminal_sequence_number : Int
  terminal_insertation_code : Char
  class_number : Int
  helix_type : Option String
  comment : String
  length : Int
deriving DecidableEq, Repr

/-- Strand descriptor (one per SHEET line); the ten registration fields
default to `None`. -/
structure Strand where
  strand : Int
  sheet_id : String
  number_of_strands : Int
  initial_residue_name : String
  initial_chain_id : Char
  initial_sequence_number : Int
  initial_insertation_code : Char
  terminal_residue_name : String
  terminal_chain_id : Char
  terminal_sequence_number : Int
  terminal_insertation_code : Char
  sense : Int
  current_atom_name : Option String
  current_residue_name : Option String
  current_chain_id : Option Char
  current_sequence_number : Option Int
  current_insertation_code : Option Char
  previous_atom_name : Option String
  previous_residue_name : Option String
  previous_chain_id : Option Char
  previous_sequence_number : Option Int
  previous_insertation_code : Option Char
deriving DecidableEq, Repr

/-- Disulfide-bond descriptor (one per SSBOND line). -/
structure SSBond where
  serial_number : Int
  chain_id_1 : Char
  sequence_number_1 : Int
  insertaion_code_1 : Char
  chain_id_2 : Char
  sequence_number_2 : Int
  insertation_code_2 : Char
  symmetry_operator_1 : Int
  symmetry_operator_2 : Int
  bond_distance : PyFloat
deriving DecidableEq, Repr

/-- Link descriptor (one per LINK line). -/
structure Link where
  atom_name_1 : String
  alt_loc_1 : Char
  residue_name_1 : String
  chain_id_1 : Char
  residue_sequence_number_1 : Int
  insertaion_code_1 : Char
  atom_name_2 : String
  alt_loc_2 : Char
  residue_name_2 : String
  chain_id_2 : Char
  residue_sequence_number_2 : Int
  insertaion_code_2 : Char
  symmetry_operator_1 : Int
  symmetry_operator_2 : Int
  link_distance : PyFloat
deriving DecidableEq, Repr

/-- Cis-peptide descriptor (one per CISPEP line); the serial number is kept
as a raw string by the source. -/
structure CisPep where
  serial_number : String
  residue_name_1 : String
  chain_id_1 : Char
  residue_sequence_number_1 : Int
  insertaion_code_1 : Char
  residue_name_2 : String
  chain_id_2 : Char
  residue_sequence_number_2 : Int
  insertaion_code_2 : Char
  model_number : Int
  angle : PyFloat
deriving DecidableEq, Repr

/-- One residue slot of a SITE line. -/
structure SiteRes where
  residue_name : String
  chain_id : Char
  residue_sequence_number : Int
  insertation_code : Char
deriving DecidableEq, Repr

/-- Site descriptor: one per declared site, accumulating residues across
its SITE lines. -/
structure Site where
  site_id : String
  residues : List SiteRes
deriving DecidableEq, Repr

/-- The output record of `_parse_pdb_header_list`.  Keys of the Python dict
become fields; keys only created on demand (`keywords`, `journal`,
`astral`) are `Option`-typed.  The dict's initial placeholder strings for
`structure_reference` and `journal_reference` are overwritten
unconditionally before the dispatch loop, so those fields carry the final
types directly. -/
structure PDBHeader where
  name : String
  head : String
  idcode : String
  deposition_date : String
  release_date : String
  structure_method : String
  resolution : Option PyFloat
  structure_reference : List String
  journal_reference : String
  author : String
  keywords : Option String
  journal : Option String
  astral : Option (List (String × String))
  compound : List (String × List (String × String))
  source : List (String × List (String × String))
  has_missing_residues : Bool
  missing_residues : List Residue465
  helices : List Helix
  sheets : List (List Strand)
  ss_bonds : List SSBond
  links : List Link
  cis_peptides : List CisPep
  sites : List Site
deriving DecidableEq, Repr

/-- The initial `pdbh_dict` of `_parse_pdb_header_list`. -/
def pdbhInit : PDBHeader where
  name := ""
  head := ""
  idcode := ""
  deposition_date := "1909-01-08"
  release_date := "1909-01-08"
  structure_method := "unknown"
  resolution := none
  structure_reference := []
  journal_reference := ""
  author := ""
  keywords := none
  journal := none
  astral := none
  compound := [("1", [("misc", "")])]
  source := [("1", [("misc", "")])]
  has_missing_residues := false
  missing_residues := []
  helices := []
  sheets := []
  ss_bonds := []
  links := []
  cis_peptides := []
  sites := []

/-- Source `__get_helix_type`: numeric helix class to name. -/
def __get_helix_type (i : Int) : Option String :=
  if i = 1 then some "Right-handed alpha"
  else if i = 2 then some "Right-handed omega"
  else if i = 3 then some "Right-handed pi"
  else if i = 4 then some "Right-handed gamma"
  else if i = 5 then some "Right-handed 310"
  else if i = 6 then some "Left-handed alpha"
  else if i = 7 then some "Left-handed omega"
  else if i = 8 then some "Left-handed gamma"
  else if i = 9 then some "27 ribbon/helix"
  else if i = 10 then some "Polyproline"
  else none

/-- The per-line mutable state of the dispatch loop: the accumulating
record plus the continuation variables `comp_molid`, `last_comp_key`,
`last_src_key`, the local list `sheets` of sheet ids seen so far, and the
SITE residue countdown `n_res_site`. -/
structure HState where
  pdbh_dict : PDBHeader
  comp_molid : String
  last_comp_key : String
  last_src_key : String
  sheets : List String
  n_res_site : Int
deriving DecidableEq, Repr

/-- TITLE branch: lowercased, suffix-chopped tail space-joined onto the
running name. -/
def titleBranch (st : HState) (tail : String) : HState :=
  let name := pyLower (_chop_end_codes tail)
  { st with pdbh_dict :=
      { st.pdbh_dict with
        name := pyStrip (st.pdbh_dict.name ++ " " ++ name) } }

/-- HEADER branch: deposition date from the date token (via `_nice_case`
then `_format_date`, whose `ValueError` propagates), id code from the
trailing token, head text from the suffix-chopped lowercased tail. -/
def headerBranch (st : HState) (tail : String) : Except PyErr HState := do
  let d := st.pdbh_dict
  let d ←
    (match searchDate tail with
     | some m =>
       (_format_date (_nice_case m)).map (fun s => { d with deposition_date := s })
     | none => pure d)
  let d :=
    (match searchIdcode tail with
     | some g => { d with idcode := g }
     | none => d)
  pure { st with pdbh_dict := { d with head := pyLower (_chop_end_misc tail) } }

/-- COMPND branch: EC-number hunt, then colon split into key/value with
`mol_id` starting a new molecule block, no-colon lines continuing the value
of the remembered last key. -/
def compndBranch (st : HState) (tail : String) : Except PyErr HState := do
  let tt := pyLower (stripSemiEnd (_chop_end_codes tail))
  let dtt ←
    (match searchEC tt with
     | some ec => do
       let sub ← agetE st.pdbh_dict.compound st.comp_molid
       pure ({ st.pdbh_dict with
               compound := aset st.pdbh_dict.compound st.comp_molid
                 (aset sub "ec_number" ec) },
             removeECParen tt)
     | none => pure (st.pdbh_dict, tt))
  let d := dtt.1
  match pySplitOn dtt.2 ":" with
  | ckey :: t1 :: _ =>
    let cval : String := ⟨t1.data.dropWhile (isPySpace ·)⟩
    if ckey = "mol_id" then
      pure { st with
             pdbh_dict := { d with compound := aset d.compound cval [("misc", "")] },
             comp_molid := cval,
             last_comp_key := "misc" }
    else do
      let sub ← agetE d.compound st.comp_molid
      pure { st with
             pdbh_dict := { d with
               compound := aset d.compound st.comp_molid (aset sub ckey cval) },
             last_comp_key := ckey }
  | [tok0] => do
    let sub ← agetE d.compound st.comp_molid
    let cur ← agetE sub st.last_comp_key
    pure { st with
           pdbh_dict := { d with
             compound := aset d.compound st.comp_molid
               (aset sub st.last_comp_key (cur ++ tok0 ++ " ")) } }
  | [] => .error .indexError

/-- SOURCE branch: like COMPND without the EC hunt; note that `comp_molid`
is the same shared variable while `last_src_key` is SOURCE's own. -/
def sourceBranch (st : HState) (tail : String) : Except PyErr HState := do
  let tt := pyLower (stripSemiEnd (_chop_end_codes tail))
  let d := st.pdbh_dict
  match pySplitOn tt ":" with
  | ckey :: t1 :: _ =>
    let cval : String := ⟨t1.data.dropWhile (isPySpace ·)⟩
    if ckey = "mol_id" then
      pure { st with
             pdbh_dict := { d with source := aset d.source cval [("misc", "")] },
             comp_molid := cval,
             last_src_key := "misc" }
    else do
      let sub ← agetE d.source st.comp_molid
      pure { st with
             pdbh_dict := { d with
               source := aset d.source st.comp_molid (aset sub ckey cval) },
             last_src_key := ckey }
  | [tok0] => do
    let sub ← agetE d.source st.comp_molid
    let cur ← agetE sub st.last_src_key
    pure { st with
           pdbh_dict := { d with
             source := aset d.source st.comp_molid
               (aset sub st.last_src_key (cur ++ tok0 ++ " ")) } }
  | [] => .error .indexError

/-- KEYWDS branch. -/
def keywdsBranch (st : HState) (tail : String) : HState :=
  let kwd := pyLower (_chop_end_codes tail)
  let d := st.pdbh_dict
  { st with pdbh_dict :=
      { d with keywords := some (match d.keywords with
                                 | some k => k ++ " " ++ kwd
                                 | none => kwd) } }

/-- EXPDTA branch. -/
def expdtaBranch (st : HState) (tail : String) : HState :=
  let expd := trimRun7 (_chop_end_codes tail)
  { st with pdbh_dict := { st.pdbh_dict with structure_method := pyLower expd } }

/-- REVDAT branch: the last matching line wins the release date. -/
def revdatBranch (st : HState) (tail : String) : Except PyErr HState :=
  match searchDate tail with
  | some m =>
    (_format_date (_nice_case m)).map
      (fun s => { st with pdbh_dict := { st.pdbh_dict with release_date := s } })
  | none => pure st

/-- JRNL branch. -/
def jrnlBranch (st : HState) (tail : String) : HState :=
  let d := st.pdbh_dict
  { st with pdbh_dict :=
      { d with journal := some (match d.journal with
                                | some j => j ++ tail
                                | none => tail) } }

/-- AUTHOR branch (the `author` key is always present in the initial dict,
so the append arm is always taken). -/
def authorBranch (st : HState) (tail : String) : HState :=
  let auth := _nice_case (_chop_end_codes tail)
  { st with pdbh_dict :=
      { st.pdbh_dict with author := st.pdbh_dict.author ++ auth } }

/-- REMARK branch: resolution sub-record (float failure caught, yielding
`None`), REMARK 465 missing residues, REMARK 99 ASTRAL classification. -/
def remarkBranch (st : HState) (hh tail : String) : Except PyErr HState :=
  let d := st.pdbh_dict
  if hasResolutionLit hh then
    let r := removeAngstrom (_chop_end_codes (removeResolutionLit hh))
    pure { st with pdbh_dict := { d with resolution := (pyFloat r).toOption } }
  else if pyStartsWith hh "REMARK 465" then
    if tail ≠ "" then do
      let info ← _parse_remark_465 tail
      let d := { d with has_missing_residues := true }
      match info with
      | some r465 =>
        pure { st with pdbh_dict :=
                 { d with missing_residues := d.missing_residues ++ [r465] } }
      | none => pure { st with pdbh_dict := d }
    else pure st
  else if pyStartsWith hh "REMARK  99 ASTRAL" then
    if tail ≠ "" then
      match pySplitOn (pyReplaceEmpty tail "ASTRAL ") ": " with
      | [k, v] =>
        pure { st with pdbh_dict :=
                 { d with astral := some (match d.astral with
                                          | some a => aset a k v
                                          | none => [(k, v)]) } }
      | _ => pure st
    else pure st
  else pure st

/-- HELIX branch: fixed-column extraction; `int` on empty or non-numeric
slices and single-character indexing past the end raise (uncaught). -/
def helixBranch (st : HState) (hh : String) : Except PyErr HState := do
  let serial ← pyInt (pySlice hh 7 10)
  let chain ← pyIndex hh 19
  let iseq ← pyInt (pySlice hh 21 25)
  let iins ← pyIndex hh 25
  let tseq ← pyInt (pySlice hh 33 37)
  let tins ← pyIndex hh 37
  let cls ← pyInt (pySlice hh 38 40)
  let len ← pyInt (pySlice hh 71 76)
  pure { st with pdbh_dict := { st.pdbh_dict with
    helices := st.pdbh_dict.helices ++
      [{ serial_number := serial,
         helix_id := pySlice hh 11 14,
         initial_residue_name := pySlice hh 15 18,
         chain_id := chain,
         initial_sequence_number := iseq,
         initial_insertation_code := iins,
         terminal_residue_name := pyStrip (pySlice hh 27 30),
         terminal_sequence_number := tseq,
         terminal_insertation_code := tins,
         class_number := cls,
         helix_type := __get_helix_type cls,
         comment := pyStrip (pySlice hh 40 70),
         length := len }] } }

/-- Mandatory part of the SHEET extraction (outside the try block). -/
def sheetMandatory (hh : String) : Except PyErr Strand := do
  let strandNo ← pyInt (pySlice hh 7 10)
  let nStrands ← pyInt (pySlice hh 14 16)
  let ichain ← pyIndex hh 21
  let iseq ← pyInt (pySlice hh 22 26)
  let iins ← pyIndex hh 26
  let tchain ← pyIndex hh 32
  let tseq ← pyInt (pySlice hh 33 37)
  let tins ← pyIndex hh 37
  let sense ← pyInt (pySlice hh 38 40)
  pure { strand := strandNo,
         sheet_id := pySlice hh 11 14,
         number_of_strands := nStrands,
         initial_residue_name := pyStrip (pySlice hh 17 20),
         initial_chain_id := ichain,
         initial_sequence_number := iseq,
         initial_insertation_code := iins,
         terminal_residue_name := pyStrip (pySlice hh 28 31),
         terminal_chain_id := tchain,
         terminal_sequence_number := tseq,
         terminal_insertation_code := tins,
         sense := sense,
         current_atom_name := none,
         current_residue_name := none,
         current_chain_id := none,
         current_sequence_number := none,
         current_insertation_code := none,
         previous_atom_name := none,
         previous_residue_name := none,
         previous_chain_id := none,
         previous_sequence_number := none,
         previous_insertation_code := none }

/-- The statement `strand[10:20] = { ... }` of the SHEET try block.  The
right-hand dict literal is evaluated first (its `hh[49]`, `int(hh[50:54])`,
... can raise on short lines); if it succeeds, the assignment itself
attempts to use the slice `10:20` as a dict key and raises
`TypeError: unhashable type: 'slice'`, because `strand` is a dict.  The
statement therefore raises on every input. -/
def sheetRegAssign (hh : String) : Except PyErr Unit := do
  let _ ← pyIndex hh 49
  let _ ← pyInt (pySlice hh 50 54)
  let _ ← pyIndex hh 54
  let _ ← pyIndex hh 64
  let _ ← pyInt (pySlice hh 65 69)
  let _ ← pyIndex hh 69
  .error (.typeError "unhashable type: slice")

/-- The SHEET `try/except Exception: pass` around `sheetRegAssign`: any
exception is swallowed and the strand is left as it was. -/
def sheetTry (hh : String) (strand : Strand) : Strand :=
  match sheetRegAssign hh with
  | .ok _ => strand
  | .error _ => strand

/-- Python `pdbh_dict["sheets"][-1].append(strand)`: append to the last
group, `IndexError` when there is none. -/
def appendLastGroup : List (List Strand) → Strand → Except PyErr (List (List Strand))
  | [], _ => .error .indexError
  | [g], s => .ok [g ++ [s]]
  | g :: gs, s => (appendLastGroup gs s).map (g :: ·)

/-- SHEET branch: mandatory extraction, opportunistic registration block,
then grouping on the sheet-ids-seen list. -/
def sheetBranch (st : HState) (hh : String) : Except PyErr HState := do
  let strand0 ← sheetMandatory hh
  let strand := sheetTry hh strand0
  let d := st.pdbh_dict
  if st.sheets.contains strand.sheet_id then do
    let groups ← appendLastGroup d.sheets strand
    pure { st with pdbh_dict := { d with sheets := groups } }
  else
    pure { st with
           pdbh_dict := { d with sheets := d.sheets ++ [[strand]] },
           sheets := st.sheets ++ [strand.sheet_id] }

/-- SSBOND branch. -/
def ssbondBranch (st : HState) (hh : String) : Except PyErr HState := do
  let serial ← pyInt (pySlice hh 7 10)
  let c1 ← pyIndex hh 15
  let s1 ← pyInt (pySlice hh 17 21)
  let i1 ← pyIndex hh 21
  let c2 ← pyIndex hh 29
  let s2 ← pyInt (pySlice hh 31 35)
  let i2 ← pyIndex hh 35
  let sym1 ← pyInt (pySlice hh 59 65)
  let sym2 ← pyInt (pySlice hh 66 72)
  let bd ← pyFloat (pySlice hh 73 78)
  pure { st with pdbh_dict := { st.pdbh_dict with
    ss_bonds := st.pdbh_dict.ss_bonds ++
      [{ serial_number := serial, chain_id_1 := c1, sequence_number_1 := s1,
         insertaion_code_1 := i1, chain_id_2 := c2, sequence_number_2 := s2,
         insertation_code_2 := i2, symmetry_operator_1 := sym1,
         symmetry_operator_2 := sym2, bond_distance := bd }] } }

/-- LINK branch. -/
def linkBranch (st : HState) (hh : String) : Except PyErr HState := do
  let a1 ← pyIndex hh 17
  let ch1 ← pyIndex hh 22
  let r1 ← pyInt (pySlice hh 22 26)
  let ic1 ← pyIndex hh 26
  let a2 ← pyIndex hh 46
  let ch2 ← pyIndex hh 51
  let r2 ← pyInt (pySlice hh 52 56)
  let ic2 ← pyIndex hh 56
  let sym1 ← pyInt (pySlice hh 59 65)
  let sym2 ← pyInt (pySlice hh 66 72)
  let ld ← pyFloat (pySlice hh 73 78)
  pure { st with pdbh_dict := { st.pdbh_dict with
    links := st.pdbh_dict.links ++
      [{ atom_name_1 := pySlice hh 12 16, alt_loc_1 := a1,
         residue_name_1 := pyStrip (pySlice hh 17 20), chain_id_1 := ch1,
         residue_sequence_number_1 := r1, insertaion_code_1 := ic1,
         atom_name_2 := pySlice hh 42 46, alt_loc_2 := a2,
         residue_name_2 := pyStrip (pySlice hh 47 50), chain_id_2 := ch2,
         residue_sequence_number_2 := r2, insertaion_code_2 := ic2,
         symmetry_operator_1 := sym1, symmetry_operator_2 := sym2,
         link_distance := ld }] } }

/-- CISPEP branch. -/
def cispepBranch (st : HState) (hh : String) : Except PyErr HState := do
  let ch1 ← pyIndex hh 15
  let r1 ← pyInt (pySlice hh 17 21)
  let ic1 ← pyIndex hh 21
  let ch2 ← pyIndex hh 29
  let r2 ← pyInt (pySlice hh 31 35)
  let ic2 ← pyIndex hh 35
  let model ← pyInt (pySlice hh 43 46)
  let angle ← pyFloat (pySlice hh 53 59)
  pure { st with pdbh_dict := { st.pdbh_dict with
    cis_peptides := st.pdbh_dict.cis_peptides ++
      [{ serial_number := pySlice hh 7 10,
         residue_name_1 := pyStrip (pySlice hh 11 14), chain_id_1 := ch1,
         residue_sequence_number_1 := r1, insertaion_code_1 := ic1,
         residue_name_2 := pyStrip (pySlice hh 25 28), chain_id_2 := ch2,
         residue_sequence_number_2 := r2, insertaion_code_2 := ic2,
         model_number := model, angle := angle }] } }

/-- One residue slot of a SITE line, at character offset `i`. -/
def siteResAt (hh : String) (i : Nat) : Except PyErr SiteRes := do
  let chain ← pyIndex hh (i + 4)
  let seq ← pyInt (pySlice hh (i + 5) (i + 9))
  let ic ← pyIndex hh (i + 10)
  pure { residue_name := pyStrip (pySlice hh i (i + 3)), chain_id := chain,
         residue_sequence_number := seq, insertation_code := ic }

/-- The SITE list comprehension, left to right over the index range. -/
def siteResList (hh : String) : List Int → Except PyErr (List SiteRes)
  | [] => .ok []
  | i :: rest => do
    let r ← siteResAt hh i.toNat
    let rs ← siteResList hh rest
    pure (r :: rs)

/-- Python `range(a, b, 11)` (counting up by 11 while below `b`). -/
def pyRange11Go : Nat → Int → Int → List Int
  | 0, _, _ => []
  | fuel+1, i, b => if i < b then i :: pyRange11Go fuel (i + 11) b else []

/-- Python `range(a, b, 11)`. -/
def pyRange11 (a b : Int) : List Int := pyRange11Go (b - a).toNat a b

/-- Python `pdbh_dict["sites"][-1]["residues"] += site`: extend the residue
list of the last site, `IndexError` when there is none. -/
def appendLastSiteRes : List Site → List SiteRes → Except PyErr (List Site)
  | [], _ => .error .indexError
  | [s], rs => .ok [{ s with residues := s.residues ++ rs }]
  | s :: ss, rs => (appendLastSiteRes ss rs).map (s :: ·)

/-- SITE branch: a line whose intra-site serial is 1 starts a new site and
seeds the countdown `n_res_site` from the declared residue total; each line
then extracts the slots of `range(18, 1 + n_res_mod * 11, 11)`. -/
def siteBranch (st : HState) (hh : String) : Except PyErr HState := do
  let serial ← pyInt (pySlice hh 7 10)
  let dn ←
    (if serial - 1 = 0 then do
      let nr ← pyInt (pySlice hh 15 17)
      pure ({ st.pdbh_dict with
              sites := st.pdbh_dict.sites ++
                [{ site_id := pySlice hh 11 14, residues := [] }] }, nr)
    else pure (st.pdbh_dict, st.n_res_site))
  let d := dn.1
  let n := dn.2
  let nm : Int × Int := if n < 4 then (n % 4, n) else (4, n - 4)
  let site ← siteResList hh (pyRange11 18 (1 + nm.1 * 11))
  let sites ← appendLastSiteRes d.sites site
  pure { st with pdbh_dict := { d with sites := sites }, n_res_site := nm.2 }

/-- The branch dispatch of the loop body, after the key and tail have been
computed from the line. -/
def stepKeyed (st : HState) (hh key tail : String) : Except PyErr HState :=
  if key = "TITLE" then .ok (titleBranch st tail)
  else if key = "HEADER" then headerBranch st tail
  else if key = "COMPND" then compndBranch st tail
  else if key = "SOURCE" then sourceBranch st tail
  else if key = "KEYWDS" then .ok (keywdsBranch st tail)
  else if key = "EXPDTA" then .ok (expdtaBranch st tail)
  else if key = "CAVEAT" then .ok st
  else if key = "REVDAT" then revdatBranch st tail
  else if key = "JRNL" then .ok (jrnlBranch st tail)
  else if key = "AUTHOR" then .ok (authorBranch st tail)
  else if key = "REMARK" then remarkBranch st hh tail
  else if key = "HELIX" then helixBranch st hh
  else if key = "SHEET" then sheetBranch st hh
  else if key = "SSBOND" then ssbondBranch st hh
  else if key = "LINK" then linkBranch st hh
  else if key = "CISPEP" then cispepBranch st hh
  else if key = "SITE" then siteBranch st hh
  else .ok st

/-- One iteration of the dispatch loop of `_parse_pdb_header_list`: chop
trailing whitespace to get `h`, classify by the trimmed first six columns,
trim the payload from column 10, and run the branch. -/
def stepLine (st : HState) (hh : String) : Except PyErr HState :=
  stepKeyed st hh (pyStrip (pySlice (pyRstrip hh) 0 6))
    (pyStrip (pyDrop (pyRstrip hh) 10))

/-- The dispatch loop: lines in order, any uncaught exception aborts. -/
def foldSteps : HState → List String → Except PyErr HState
  | st, [] => .ok st
  | st, hh :: rest =>
    match stepLine st hh with
    | .ok st' => foldSteps st' rest
    | .error e => .error e

/-- The final fixup: default the structure method from a positive
resolution. -/
def finalFixup (d : PDBHeader) : PDBHeader :=
  if d.structure_method = "unknown" then
    match d.resolution with
    | some res =>
      if res.isPos then { d with structure_method := "x-ray diffraction" } else d
    | none => d
  else d

/-- The state entering the dispatch loop: the initial dict seeded with the
reference and journal scans, and the initial continuation variables. -/
def initState (header : List String) : HState :=
  { pdbh_dict := { pdbhInit with
                   structure_reference := _get_references header,
                   journal_reference := _get_journal header },
    comp_molid := "1", last_comp_key := "misc", last_src_key := "misc",
    sheets := [], n_res_site := 0 }

/-- Source `_parse_pdb_header_list`: seed the record with the reference and
journal scans, run the dispatch loop, apply the final fixup. -/
def _parse_pdb_header_list (header : List String) : Except PyErr PDBHeader :=
  (foldSteps (initState header) header).map (fun st => finalFixup st.pdbh_dict)

/-- A 40-column SHEET line: strand 1 of sheet id `  A` (mandatory columns
only, ending right after the sense field `hh[38:40]`). -/
def sheetLineA1 : String := "SHEET    1   A 4 LYS A  10  VAL A  14  0"

/-- Strand 2 of sheet id `  A`. -/
def sheetLineA2 : String := "SHEET    2   A 4 LYS A  10  VAL A  14  0"

/-- Strand 3 of sheet id `  A`. -/
def sheetLineA3 : String := "SHEET    3   A 4 LYS A  10  VAL A  14  0"

/-- Strand 1 of sheet id `  B`. -/
def sheetLineB1 : String := "SHEET    1   B 4 LYS A  10  VAL A  14  0"

/-- A 70-column SHEET line carrying the full registration pair in columns
41-69 (current atom `  N `, residue `VAL`, chain `A`, sequence 15;
previous atom `  O `, residue `THR`, chain `A`, sequence 107). -/
def sheetLineFull : String :=
  sheetLineA1 ++ "   N " ++ "VAL" ++ " A" ++ "  15" ++ "  " ++ "  O " ++
    "THR" ++ " A" ++ " 107" ++ " "

/-- First SITE line of site `AC1`: intra-site serial 1, declared residue
total 6, four residue slots packed at offsets 18, 29, 40, 51. -/
def siteLine1 : String :=
  "SITE     1 AC1  6 " ++ "HIS A  94  " ++ "HIS A  96  " ++ "HIS A 119  " ++
    "ASP A 121"

/-- Second SITE line of site `AC1`: intra-site serial 2, two residue slots
packed at offsets 18 and 29. -/
def siteLine2 : String := "SITE     2 AC1  6 " ++ "HOH A 318  " ++ "THR A 199"

/-- COMPND molecule-id line. -/
def compndLine1 : String := "COMPND    MOL_ID: 1;"

/-- COMPND attribute line declaring the molecule name. -/
def compndLine2 : String := "COMPND   2 MOLECULE: HEMOGLOBIN;"

/-- COMPND continuation line (no colon). -/
def compndLine3 : String := "COMPND   3 (ALPHA CHAIN);"

/-- Second COMPND molecule-id line (molecule 2). -/
def compndMolLine2 : String := "COMPND   2 MOL_ID: 2;"

/-- SOURCE molecule-id line selecting molecule 1 again. -/
def sourceMolLine1 : String := "SOURCE    MOL_ID: 1;"

/-- COMPND attribute line following the SOURCE molecule-id line. -/
def compndAttrLine : String := "COMPND   4 MOLECULE: FOO;"

/-- HEADER line with date token `08-JAN-09` and id code `4HHB`. -/
def headerDateLine : String :=
  "HEADER    OXYGEN TRANSPORT                     08-JAN-09   4HHB"

/-- REVDAT line with date token `08-JAN-60`. -/
def revdatDateLine : String := "REVDAT   1   08-JAN-60"

/-- HEADER line whose date token `01-ABC-99` has an unrecognized month
abbreviation. -/
def badMonthLine : String :=
  "HEADER    PROTEIN                              01-ABC-99   1ABC"

/-- REMARK 2 resolution line with a parseable numeric value. -/
def resolutionLine : String := "REMARK   2 RESOLUTION.    2.00 ANGSTROMS."

/-- REMARK 2 resolution line whose numeric token is replaced by
`NOT APPLICABLE`. -/
def resolutionLineNA : String :=
  "REMARK   2 RESOLUTION.    NOT APPLICABLE ANGSTROMS."

/-- A HELIX line truncated to its record name only (shorter than every
mandatory column range). -/
def truncatedHelixLine : String := "HELIX"

/-- Shape check for a `YYYY-MM-DD` string: exactly ten characters, digits
in the year, month and day positions, dashes between. -/
def validDateFmt (s : String) : Bool :=
  match s.data with
  | [a, b, c, d, '-', e, f, '-', g, h] =>
    isDigitC a && isDigitC b && isDigitC c && isDigitC d &&
    isDigitC e && isDigitC f && isDigitC g && isDigitC h
  | _ => false

/-- Shape check: exactly four digit characters. -/
def fourDigitsB (s : String) : Bool :=
  match s.data with
  | [a, b, c, d] => isDigitC a && isDigitC b && isDigitC c && isDigitC d
  | _ => false

/-- Shape check: exactly two digit characters. -/
def twoDigitsB (s : String) : Bool :=
  match s.data with
  | [a, b] => isDigitC a && isDigitC b
  | _ => false

/-- Zero-padded two-digit rendering of a year below 100. -/
def mkYY (y : Nat) : String :=
  if y < 10 then "0" ++ Nat.repr y else Nat.repr y

/-- Decidable equality for `Except`, so that concrete runs of the embedded
parser can be checked by `decide`. -/
instance {ε α : Type} [DecidableEq ε] [DecidableEq α] : DecidableEq (Except ε α) :=
  fun x y =>
    match x, y with
    | .ok a, .ok b =>
      if h : a = b then isTrue (by rw [h])
      else isFalse (by intro he; cases he; exact h rfl)
    | .error a, .error b =>
      if h : a = b then isTrue (by rw [h])
      else isFalse (by intro he; cases he; exact h rfl)
    | .ok _, .error _ => isFalse (by intro h; cases h)
    | .error _, .ok _ => isFalse (by intro h; cases h)

/-- Claim C1, counterexample.  The claim says a SHEET line with an
already-seen sheet id is appended to the most recent group carrying that
same identifier, so that three `  A` lines interleaved with one `  B` line
leave the `  A` group with its three strands.  On the interleaved input
A,B,A,A the parser instead appends the later `  A` strands to the last
group overall — the `  B` group — so the `  A` group keeps a single strand
and the result differs from the claimed grouping. -/
theorem C1_sheet_grouping_counterexample :
    (_parse_pdb_header_list [sheetLineA1, sheetLineB1, sheetLineA2, sheetLineA3]).map
        (fun r => r.sheets.map (fun g => g.map (fun s => (s.sheet_id, s.strand)))) =
      .ok [[("  A", 1)], [("  B", 1), ("  A", 2), ("  A", 3)]] ∧
    (_parse_pdb_header_list [sheetLineA1, sheetLineB1, sheetLineA2, sheetLineA3]).map
        (fun r => r.sheets.map (fun g => g.map (fun s => (s.sheet_id, s.strand)))) ≠
      .ok [[("  A", 1), ("  A", 2), ("  A", 3)], [("  B", 1)]] :=
  ⟨by decide, by decide⟩

/-- Claim C1, amended: a SHEET line whose sheet id was already seen is
appended to the last group overall (whatever that group's identifier); a
new identifier starts a new group.  When all lines sharing an identifier
are consecutive this coincides with the claimed behaviour: three
consecutive `  A` lines followed by one `  B` line yield exactly two groups
in discovery order, the `  A` group holding its three strands in line
order. -/
theorem C1_sheet_grouping_amended :
    (_parse_pdb_header_list [sheetLineA1, sheetLineA2, sheetLineA3, sheetLineB1]).map
        (fun r => r.sheets.map (fun g => g.map (fun s => (s.sheet_id, s.strand)))) =
      .ok [[("  A", 1), ("  A", 2), ("  A", 3)], [("  B", 1)]] := by decide

/-- Claim C2 (code bug).  A site declared with 6 residues packed four then
two across two SITE lines should receive 6 residue descriptors, and the
countdown logic (`n_res_site -= 4`) presumes four residues are consumed on
the first line.  The slot range `range(18, 1 + n_res_mod * 11, 11)` stops
one slot early (its bound should be `18 + n_res_mod * 11`), so the parser
extracts 3 residues from the first line and 1 from the second: the site
ends with 4 descriptors, not 6. -/
theorem C2_site_residue_packing_bug :
    (_parse_pdb_header_list [siteLine1, siteLine2]).map
        (fun r => r.sites.map (fun s =>
          (s.site_id,
           s.residues.map (fun x => (x.residue_name, x.residue_sequence_number))))) =
      .ok [("AC1", [("HIS", 94), ("HIS", 96), ("HIS", 119), ("HOH", 318)])] ∧
    (_parse_pdb_header_list [siteLine1, siteLine2]).map
        (fun r => r.sites.map (fun s => s.residues.length)) ≠ .ok [6] :=
  ⟨by decide, by decide⟩

/-- Claim C3 (code bug).  On a 70-column SHEET line that contains the full
registration pair in columns 41-69, all ten current/previous registration
fields nevertheless remain at their absent default: the update statement
`strand[10:20] = {…}` assigns through a slice key on a dict, which raises
`TypeError` on every execution and is swallowed by the surrounding
`except Exception: pass`. -/
theorem C3_sheet_registration_bug :
    sheetLineFull.length = 70 ∧
    (_parse_pdb_header_list [sheetLineFull]).map
        (fun r => r.sheets.map (fun g => g.map (fun s =>
          (s.current_atom_name, s.previous_atom_name)))) =
      .ok [[(none, none)]] ∧
    (_parse_pdb_header_list [sheetLineFull]).map
        (fun r => r.sheets.map (fun g => g.map (fun s =>
          (s.current_residue_name, s.previous_residue_name)))) =
      .ok [[(none, none)]] ∧
    (_parse_pdb_header_list [sheetLineFull]).map
        (fun r => r.sheets.map (fun g => g.map (fun s =>
          (s.current_chain_id, s.previous_chain_id)))) =
      .ok [[(none, none)]] ∧
    (_parse_pdb_header_list [sheetLineFull]).map
        (fun r => r.sheets.map (fun g => g.map (fun s =>
          (s.current_sequence_number, s.previous_sequence_number)))) =
      .ok [[(none, none)]] ∧
    (_parse_pdb_header_list [sheetLineFull]).map
        (fun r => r.sheets.map (fun g => g.map (fun s =>
          (s.current_insertation_code, s.previous_insertation_code)))) =
      .ok [[(none, none)]] :=
  ⟨by decide, by decide, by decide, by decide, by decide, by decide⟩

/-- Claim C4, counterexample.  The claim says a line shorter than its
record type's column ranges never makes the parse raise and the parse still
returns a record; but a HELIX line truncated to its record name makes
`int(hh[7:10])` receive an empty slice and the uncaught `ValueError` aborts
the whole parse. -/
theorem C4_short_line_counterexample :
    _parse_pdb_header_list [truncatedHelixLine] = .error (.valueError "") := by
  decide

/-- Claim C4, amended: only the SHEET registration-pair extraction is
protected against short lines — a SHEET line carrying the mandatory
columns (40 characters) but none of the registration columns parses to a
completed record with the registration fields absent, while a line of
another record type truncated below its mandatory columns (for example a
bare `HELIX`) raises an uncontrolled error that aborts the parse. -/
theorem C4_short_line_amended :
    sheetLineA1.length = 40 ∧
    (_parse_pdb_header_list [sheetLineA1]).map
        (fun r => r.sheets.map (fun g => g.map (fun s => s.strand))) =
      .ok [[1]] ∧
    (_parse_pdb_header_list [sheetLineA1]).map
        (fun r => r.sheets.map (fun g => g.map (fun s =>
          (s.current_atom_name, s.previous_atom_name)))) =
      .ok [[(none, none)]] ∧
    (_parse_pdb_header_list [sheetLineA1]).map
        (fun r => r.sheets.map (fun g => g.map (fun s =>
          (s.current_sequence_number, s.previous_sequence_number)))) =
      .ok [[(none, none)]] ∧
    (_parse_pdb_header_list [truncatedHelixLine]).isOk = false :=
  ⟨by decide, by decide, by decide, by decide, by decide⟩

/-- Claim C5, counterexample.  The claim predicts
`compound["1"]["molecule"]` equals the second and third processed tail
texts joined with a space, i.e. `hemoglobin (alpha chain)`.  The
continuation branch instead appends `tok[0] + " "` directly to the stored
value, producing `hemoglobin(alpha chain) ` — no separator before the
continuation, a trailing space after it. -/
theorem C5_compnd_continuation_counterexample :
    (_parse_pdb_header_list [compndLine1, compndLine2, compndLine3]).map
        (fun r => (aget r.compound "1").map (fun m => aget m "molecule")) =
      .ok (some (some "hemoglobin(alpha chain) ")) ∧
    "hemoglobin(alpha chain) " ≠ "hemoglobin" ++ " " ++ "(alpha chain)" :=
  ⟨by decide, by decide⟩

/-- Claim C5, amended: after `COMPND    MOL_ID: 1;`,
`COMPND   2 MOLECULE: HEMOGLOBIN;` and `COMPND   3 (ALPHA CHAIN);`, the
value under `compound["1"]["molecule"]` is the second line's value text
with the third line's continuation text appended directly, followed by a
trailing space: `hemoglobin(alpha chain) `. -/
theorem C5_compnd_continuation_amended :
    (_parse_pdb_header_list [compndLine1, compndLine2, compndLine3]).map
        (fun r => aget r.compound "1") =
      .ok (some [("misc", ""), ("molecule", "hemoglobin" ++ "(alpha chain)" ++ " ")]) := by
  decide

/-- Claim C6, counterexample.  Producing the dates can make the parse
fail: a HEADER line whose matched date token `01-ABC-99` carries an
unrecognized month abbreviation sends `Abc` to the month-table lookup of
`_format_date`, whose `ValueError` propagates and aborts the parse instead
of returning a record. -/
theorem C6_bad_month_counterexample :
    _parse_pdb_header_list [badMonthLine] = .error (.valueError "Abc") := by
  decide

/-- Claim C7.  The date normalization maps `08-JAN-09` to `2009-01-08` and
`08-JAN-60` to `1960-01-08`, both at the `_format_date ∘ _nice_case`
composition used by the HEADER/REVDAT branches and through a full parse of
such lines; and for every two-digit year the century is 2000 below 50 and
1900 otherwise, with the month rendered as a zero-padded two-digit
number. -/
theorem C7_date_conversion :
    (_parse_pdb_header_list [headerDateLine, revdatDateLine]).map
        (fun r => (r.deposition_date, r.release_date)) =
      .ok ("2009-01-08", "1960-01-08") ∧
    _format_date (_nice_case "08-JAN-09") = .ok "2009-01-08" ∧
    _format_date (_nice_case "08-JAN-60") = .ok "1960-01-08" ∧
    (∀ y : Fin 100,
      _format_date ("08-Jan-" ++ mkYY y.val) =
        .ok (intStr (if y.val < 50 then (2000 + y.val : Int) else (1900 + y.val : Int))
              ++ "-01-08")) :=
  ⟨by decide, by decide, by decide, by decide⟩

/-- Claim C8.  The resolution line with numeric token `2.00` yields
resolution 2.00 (the exact decimal two in the float model); replacing the
numeric token by `NOT APPLICABLE` yields an absent resolution, with the
parse completing normally in both cases. -/
theorem C8_resolution_parsing :
    (_parse_pdb_header_list [resolutionLine]).map (fun r => r.resolution) =
      .ok (some ⟨2, 1⟩) ∧
    (_parse_pdb_header_list [resolutionLineNA]).map (fun r => r.resolution) =
      .ok none :=
  ⟨by decide, by decide⟩

/-- Claim C9.  The missing-residue sub-grammar maps `1 ALA A 23` to model
1, residue `ALA`, chain `A`, sequence 23, no insertion code; maps
`GLY B 45A` to no model, residue `GLY`, chain `B`, sequence 45, insertion
code `A` (the full token `45A` fails integer parsing, so its trailing
character becomes the insertion code and the prefix is re-parsed); and maps
`not a match` to no result. -/
theorem C9_missing_residue_grammar :
    _parse_remark_465 "1 ALA A 23" =
      .ok (some { model := some 1, res_name := "ALA", chain := 'A',
                  ssseq := 23, insertion := none }) ∧
    _parse_remark_465 "GLY B 45A" =
      .ok (some { model := none, res_name := "GLY", chain := 'B',
                  ssseq := 45, insertion := some 'A' }) ∧
    _parse_remark_465 "not a match" = .ok none :=
  ⟨by decide, by decide, by decide⟩

/-- Claim C10.  The molecule-id continuation state is one shared variable:
after COMPND declares molecule ids 1 and 2, a SOURCE line declaring
`MOL_ID: 1` re-targets the shared id, so the following COMPND attribute
line stores `molecule: foo` under `compound["1"]` — not under
`compound["2"]`, the id last declared by a COMPND line — while the SOURCE
map itself is untouched by the COMPND attribute line. -/
theorem C10_shared_molid :
    (_parse_pdb_header_list
        [compndLine1, compndMolLine2, sourceMolLine1, compndAttrLine]).map
        (fun r => ((aget r.compound "1").map (fun m => aget m "molecule"),
                   (aget r.compound "2").map (fun m => aget m "molecule"),
                   aget r.source "1")) =
      .ok (some (some "foo"), some none, some [("misc", "")]) := by decide

theorem isUpperC_of_digit (c : Char) (h : isDigitC c = true) : isUpperC c = false := by
  simp [isDigitC] at h
  simp [isUpperC]
  omega

theorem isLowerC_of_digit (c : Char) (h : isDigitC c = true) : isLowerC c = false := by
  simp [isDigitC] at h
  simp [isLowerC]
  omega

theorem isPySpace_of_digit (c : Char) (h : isDigitC c = true) : isPySpace c = false := by
  simp [isDigitC] at h
  simp [isPySpace]
  omega

theorem isSepC_of_digit (c : Char) (h : isDigitC c = true) : isSepC c = false := by
  cases hb : isSepC c with
  | false => rfl
  | true =>
    simp [isSepC] at hb
    rcases hb with ((((((rfl | rfl) | rfl) | rfl) | rfl) | rfl) | rfl) | rfl <;>
      exact absurd h (by decide)

theorem pyLowerChar_of_digit (c : Char) (h : isDigitC c = true) : pyLowerChar c = c := by
  unfold pyLowerChar
  rw [isUpperC_of_digit c h]
  rfl

theorem searchGo_sound {α : Type} (fuel : Nat) (cs : List Char)
    (p : List Char → Option α) (r : α) (h : searchGo fuel cs p = some r) :
    ∃ cs', p cs' = some r := by
  induction fuel generalizing cs with
  | zero =>
    cases cs with
    | nil => exact ⟨[], h⟩
    | cons c rest => exact ⟨c :: rest, h⟩
  | succ n ih =>
    cases cs with
    | nil => exact ⟨[], h⟩
    | cons c rest =>
      unfold searchGo at h
      cases hp : p (c :: rest) with
      | some r' =>
        rw [hp] at h
        exact ⟨c :: rest, by rw [hp]; exact h⟩
      | none =>
        rw [hp] at h
        exact ih rest h

theorem dateAt_shape (cs out : List Char) (h : dateAt cs = some out) :
    ∃ a b w1 w2 w3 c d,
      out = [a, b, '-', w1, w2, w3, '-', c, d] ∧
      isDigitC a = true ∧ isDigitC b = true ∧ isDigitC c = true ∧
      isDigitC d = true := by
  unfold dateAt at h
  split at h
  next d1 d2 w1 w2 w3 d3 d4 rest =>
    split at h
    next hcond =>
      simp only [Bool.and_eq_true] at hcond
      cases h
      exact ⟨d1, d2, w1, w2, w3, d3, d4, rfl, hcond.1.1.1.1.1.1, hcond.1.1.1.1.1.2,
        hcond.1.2, hcond.2⟩
    next => exact absurd h (by simp)
  next => exact absurd h (by simp)

theorem searchDate_shape (s m : String) (h : searchDate s = some m) :
    ∃ a b w1 w2 w3 c d,
      m.data = [a, b, '-', w1, w2, w3, '-', c, d] ∧
      isDigitC a = true ∧ isDigitC b = true ∧ isDigitC c = true ∧
      isDigitC d = true := by
  unfold searchDate at h
  cases hg : searchGo s.data.length s.data dateAt with
  | none => rw [hg] at h; exact absurd h (by simp)
  | some out =>
    rw [hg] at h
    simp only [Option.map] at h
    obtain ⟨cs', hp⟩ := searchGo_sound _ _ _ _ hg
    obtain ⟨a, b, w1, w2, w3, c, d, hout, ha, hb, hc, hd⟩ := dateAt_shape cs' out hp
    refine ⟨a, b, w1, w2, w3, c, d, ?_, ha, hb, hc, hd⟩
    cases h
    exact hout

theorem niceCaseAux_cons (cap : Bool) (c : Char) (cs : List Char) :
    niceCaseAux cap (c :: cs) =
      if isLowerC c && cap then pyUpperChar c :: niceCaseAux false cs
      else if isSepC c then c :: niceCaseAux true cs
      else c :: niceCaseAux cap cs := by
  conv_lhs => unfold niceCaseAux

theorem niceCaseAux_step (cap : Bool) (c : Char) (cs : List Char) :
    ∃ c' cap', niceCaseAux cap (c :: cs) = c' :: niceCaseAux cap' cs := by
  rw [niceCaseAux_cons]
  by_cases h1 : (isLowerC c && cap) = true
  · rw [if_pos h1]; exact ⟨_, _, rfl⟩
  · rw [if_neg h1]
    by_cases h2 : isSepC c = true
    · rw [if_pos h2]; exact ⟨_, _, rfl⟩
    · rw [if_neg h2]; exact ⟨_, _, rfl⟩

theorem niceCaseAux_digit (cap : Bool) (c : Char) (cs : List Char)
    (h : isDigitC c = true) :
    niceCaseAux cap (c :: cs) = c :: niceCaseAux cap cs := by
  have h1 : ¬((isLowerC c && cap) = true) := by
    rw [isLowerC_of_digit c h]; simp
  have h2 : ¬(isSepC c = true) := by
    rw [isSepC_of_digit c h]; simp
  rw [niceCaseAux_cons, if_neg h1, if_neg h2]

theorem niceCaseAux_dash (cap : Bool) (cs : List Char) :
    niceCaseAux cap ('-' :: cs) = '-' :: niceCaseAux true cs := rfl

theorem nice_case_shape (a b w1 w2 w3 c d : Char)
    (ha : isDigitC a = true) (hb : isDigitC b = true)
    (hc : isDigitC c = true) (hd : isDigitC d = true) :
    ∃ x y z, (_nice_case ⟨[a, b, '-', w1, w2, w3, '-', c, d]⟩).data =
      [a, b, '-', x, y, z, '-', c, d] := by
  unfold _nice_case
  show ∃ x y z,
    niceCaseAux true (List.map pyLowerChar [a, b, '-', w1, w2, w3, '-', c, d]) =
      [a, b, '-', x, y, z, '-', c, d]
  simp only [List.map]
  rw [pyLowerChar_of_digit a ha, pyLowerChar_of_digit b hb,
      pyLowerChar_of_digit c hc, pyLowerChar_of_digit d hd,
      show pyLowerChar '-' = '-' from rfl]
  rw [niceCaseAux_digit _ _ _ ha, niceCaseAux_digit _ _ _ hb, niceCaseAux_dash]
  obtain ⟨x, cap1, hx⟩ := niceCaseAux_step true (pyLowerChar w1)
    (pyLowerChar w2 :: pyLowerChar w3 :: '-' :: c :: d :: [])
  rw [hx]
  obtain ⟨y, cap2, hy⟩ := niceCaseAux_step cap1 (pyLowerChar w2)
    (pyLowerChar w3 :: '-' :: c :: d :: [])
  rw [hy]
  obtain ⟨z, cap3, hz⟩ := niceCaseAux_step cap2 (pyLowerChar w3)
    ('-' :: c :: d :: [])
  rw [hz]
  rw [niceCaseAux_dash, niceCaseAux_digit _ _ _ hc, niceCaseAux_digit _ _ _ hd]
  exact ⟨x, y, z, rfl⟩

theorem pyInt_two_digits (c d : Char) (hc : isDigitC c = true)
    (hd : isDigitC d = true) :
    ∃ y : Int, pyInt ⟨[c, d]⟩ = .ok y ∧ 0 ≤ y ∧ y < 100 := by
  have hstrip : stripL (⟨[c, d]⟩ : String).data = [c, d] := by
    show stripL [c, d] = [c, d]
    unfold stripL
    simp [List.dropWhile_cons, isPySpace_of_digit c hc, isPySpace_of_digit d hd]
  have hcn : 48 ≤ c.toNat ∧ c.toNat ≤ 57 := by simpa [isDigitC] using hc
  have hdn : 48 ≤ d.toNat ∧ d.toNat ≤ 57 := by simpa [isDigitC] using hd
  refine ⟨(digitsValN [c, d] : Nat), ?_, by positivity, ?_⟩
  · unfold pyInt
    rw [hstrip]
    split
    · next heq =>
      exfalso
      injection heq with h1 _
      rw [h1] at hc
      exact absurd hc (by decide)
    · next heq =>
      exfalso
      injection heq with h1 _
      rw [h1] at hc
      exact absurd hc (by decide)
    · unfold intDigits
      rw [if_pos]
      simp [List.all, hc, hd]
  · have hv : digitsValN [c, d] = 10 * (c.toNat - 48) + (d.toNat - 48) := by
      simp [digitsValN, List.foldl]
    rw [hv]
    have hb : 10 * (c.toNat - 48) + (d.toNat - 48) < 100 := by omega
    exact_mod_cast hb

theorem listIndex_lt_length (l : List String) (x : String) (i : Nat)
    (h : listIndex l x = .ok i) : i < l.length := by
  induction l generalizing i with
  | nil => exact absurd h (by simp [listIndex])
  | cons y rest ih =>
    unfold listIndex at h
    split at h
    · cases h
      simp
    · cases hr : listIndex rest x with
      | error e => rw [hr] at h; exact absurd h (by simp [Except.map])
      | ok j =>
        rw [hr] at h
        simp only [Except.map] at h
        cases h
        have := ih j hr
        simp
        omega

theorem month_pad_two : ∀ i : Nat, i < 13 →
    twoDigitsB (if (Nat.repr i).length = 1 then "0" ++ Nat.repr i
                else Nat.repr i) = true := by decide

theorem year_repr_four : ∀ y : Nat, y < 100 →
    fourDigitsB (Nat.repr (if y < 50 then 2000 + y else 1900 + y)) = true := by
  decide

theorem validDateFmt_assemble (ys ms : String) (a b : Char)
    (h4 : fourDigitsB ys = true) (h2 : twoDigitsB ms = true)
    (ha : isDigitC a = true) (hb : isDigitC b = true) :
    validDateFmt (ys ++ "-" ++ ms ++ "-" ++ (⟨[a, b]⟩ : String)) = true := by
  unfold fourDigitsB at h4
  split at h4
  next y1 y2 y3 y4 hys =>
    unfold twoDigitsB at h2
    split at h2
    next m1 m2 hms =>
      unfold validDateFmt
      have hdata :
          (ys ++ "-" ++ ms ++ "-" ++ (⟨[a, b]⟩ : String)).data =
            [y1, y2, y3, y4, '-', m1, m2, '-', a, b] := by
        simp [hys, hms]
      rw [hdata]
      simp only [Bool.and_eq_true] at h4 h2 ⊢
      exact ⟨⟨⟨⟨⟨⟨⟨h4.1.1.1, h4.1.1.2⟩, h4.1.2⟩, h4.2⟩, h2.1⟩, h2.2⟩, ha⟩, hb⟩
    next => exact absurd h2 (by simp)
  next => exact absurd h4 (by simp)

theorem format_date_valid (p out : String) (a b w1 w2 w3 c d : Char)
    (hp : p.data = [a, b, '-', w1, w2, w3, '-', c, d])
    (ha : isDigitC a = true) (hb : isDigitC b = true)
    (hc : isDigitC c = true) (hd : isDigitC d = true)
    (h : _format_date p = .ok out) : validDateFmt out = true := by
  obtain ⟨y, hy, hy0, hy100⟩ := pyInt_two_digits c d hc hd
  have hdrop : pyDrop p 7 = ⟨[c, d]⟩ := by unfold pyDrop; rw [hp]; rfl
  unfold _format_date at h
  rw [hdrop, hy] at h
  simp only [bind, Except.bind] at h
  cases hidx : listIndex all_months (pySlice p 3 6) with
  | error e => rw [hidx] at h; exact absurd h (by simp)
  | ok idx =>
    rw [hidx] at h
    simp only [pure, Except.pure, Except.ok.injEq] at h
    have hidx13 : idx < 13 := by
      have := listIndex_lt_length _ _ _ hidx
      simpa [all_months] using this
    have htake : pyTake p 2 = (⟨[a, b]⟩ : String) := by
      unfold pyTake; rw [hp]; rfl
    have hyear : intStr ((if y < 50 then (2000 : Int) else 1900) + y) =
        Nat.repr (if y.toNat < 50 then 2000 + y.toNat else 1900 + y.toNat) := by
      unfold intStr
      have hnn : ¬((if y < 50 then (2000 : Int) else 1900) + y < 0) := by
        split <;> omega
      rw [if_neg hnn]
      congr 1
      split
      · next hlt =>
        rw [if_pos (by omega : y.toNat < 50)]
        omega
      · next hge =>
        rw [if_neg (by omega : ¬(y.toNat < 50))]
        omega
    rw [← h, htake, hyear]
    exact validDateFmt_assemble _ _ a b
      (year_repr_four y.toNat (by omega))
      (month_pad_two idx hidx13) ha hb

theorem format_after_search (tail m out : String) (hs : searchDate tail = some m)
    (hf : _format_date (_nice_case m) = .ok out) : validDateFmt out = true := by
  obtain ⟨a, b, w1, w2, w3, c, d, hm, ha, hb, hc, hd⟩ := searchDate_shape tail m hs
  obtain ⟨x, y, z, hn⟩ := nice_case_shape a b w1 w2 w3 c d ha hb hc hd
  have hm' : m = ⟨[a, b, '-', w1, w2, w3, '-', c, d]⟩ := by
    cases m
    cases hm
    rfl
  rw [hm'] at hf
  exact format_date_valid _ out a b x y z c d hn ha hb hc hd hf

theorem compndBranch_dates (st st' : HState) (tail : String)
    (h : compndBranch st tail = .ok st') :
    st'.pdbh_dict.deposition_date = st.pdbh_dict.deposition_date ∧
    st'.pdbh_dict.release_date = st.pdbh_dict.release_date := by
  unfold compndBranch at h
  simp only [bind, Except.bind, pure, Except.pure] at h
  cases hec : searchEC (pyLower (stripSemiEnd (_chop_end_codes tail))) with
  | none =>
    rw [hec] at h
    simp only [bind, Except.bind, pure, Except.pure] at h
    repeat' first
      | (cases h; try exact ⟨rfl, rfl⟩)
      | split at h
  | some ec =>
    rw [hec] at h
    simp only [bind, Except.bind, pure, Except.pure] at h
    cases hag : agetE st.pdbh_dict.compound st.comp_molid with
    | error e =>
      rw [hag] at h
      simp only [bind, Except.bind, pure, Except.pure] at h
      cases h
    | ok sub =>
      rw [hag] at h
      simp only [bind, Except.bind, pure, Except.pure] at h
      repeat' first
        | (cases h; try exact ⟨rfl, rfl⟩)
        | split at h

theorem sourceBranch_dates (st st' : HState) (tail : String)
    (h : sourceBranch st tail = .ok st') :
    st'.pdbh_dict.deposition_date = st.pdbh_dict.deposition_date ∧
    st'.pdbh_dict.release_date = st.pdbh_dict.release_date := by
  unfold sourceBranch at h
  simp only [bind, Except.bind, pure, Except.pure] at h
  repeat' first
    | (cases h; try exact ⟨rfl, rfl⟩)
    | split at h

theorem remarkBranch_dates (st st' : HState) (hh tail : String)
    (h : remarkBranch st hh tail = .ok st') :
    st'.pdbh_dict.deposition_date = st.pdbh_dict.deposition_date ∧
    st'.pdbh_dict.release_date = st.pdbh_dict.release_date := by
  unfold remarkBranch at h
  simp only [bind, Except.bind, pure, Except.pure] at h
  repeat' first
    | (cases h; try exact ⟨rfl, rfl⟩)
    | split at h

theorem helixBranch_dates (st st' : HState) (hh : String)
    (h : helixBranch st hh = .ok st') :
    st'.pdbh_dict.deposition_date = st.pdbh_dict.deposition_date ∧
    st'.pdbh_dict.release_date = st.pdbh_dict.release_date := by
  unfold helixBranch at h
  simp only [bind, Except.bind, pure, Except.pure] at h
  repeat' first
    | (cases h; try exact ⟨rfl, rfl⟩)
    | split at h

theorem sheetBranch_dates (st st' : HState) (hh : String)
    (h : sheetBranch st hh = .ok st') :
    st'.pdbh_dict.deposition_date = st.pdbh_dict.deposition_date ∧
    st'.pdbh_dict.release_date = st.pdbh_dict.release_date := by
  unfold sheetBranch at h
  simp only [bind, Except.bind, pure, Except.pure] at h
  repeat' first
    | (cases h; try exact ⟨rfl, rfl⟩)
    | split at h

theorem ssbondBranch_dates (st st' : HState) (hh : String)
    (h : ssbondBranch st hh = .ok st') :
    st'.pdbh_dict.deposition_date = st.pdbh_dict.deposition_date ∧
    st'.pdbh_dict.release_date = st.pdbh_dict.release_date := by
  unfold ssbondBranch at h
  simp only [bind, Except.bind, pure, Except.pure] at h
  repeat' first
    | (cases h; try exact ⟨rfl, rfl⟩)
    | split at h

theorem linkBranch_dates (st st' : HState) (hh : String)
    (h : linkBranch st hh = .ok st') :
    st'.pdbh_dict.deposition_date = st.pdbh_dict.deposition_date ∧
    st'.pdbh_dict.release_date = st.pdbh_dict.release_date := by
  unfold linkBranch at h
  simp only [bind, Except.bind, pure, Except.pure] at h
  repeat' first
    | (cases h; try exact ⟨rfl, rfl⟩)
    | split at h

theorem cispepBranch_dates (st st' : HState) (hh : String)
    (h : cispepBranch st hh = .ok st') :
    st'.pdbh_dict.deposition_date = st.pdbh_dict.deposition_date ∧
    st'.pdbh_dict.release_date = st.pdbh_dict.release_date := by
  unfold cispepBranch at h
  simp only [bind, Except.bind, pure, Except.pure] at h
  repeat' first
    | (cases h; try exact ⟨rfl, rfl⟩)
    | split at h

theorem siteBranch_dates (st st' : HState) (hh : String)
    (h : siteBranch st hh = .ok st') :
    st'.pdbh_dict.deposition_date = st.pdbh_dict.deposition_date ∧
    st'.pdbh_dict.release_date = st.pdbh_dict.release_date := by
  unfold siteBranch at h
  simp only [bind, Except.bind, pure, Except.pure] at h
  cases hser : pyInt (pySlice hh 7 10) with
  | error e =>
    rw [hser] at h
    simp only [bind, Except.bind, pure, Except.pure] at h
    cases h
  | ok serial =>
    rw [hser] at h
    simp only [bind, Except.bind, pure, Except.pure] at h
    by_cases hs1 : serial - 1 = 0
    · rw [if_pos hs1] at h
      cases hnr : pyInt (pySlice hh 15 17) with
      | error e =>
        rw [hnr] at h
        simp only [bind, Except.bind, pure, Except.pure] at h
        cases h
      | ok nr =>
        rw [hnr] at h
        simp only [bind, Except.bind, pure, Except.pure] at h
        repeat' first
          | (cases h; try exact ⟨rfl, rfl⟩)
          | split at h
    · rw [if_neg hs1] at h
      simp only [bind, Except.bind, pure, Except.pure] at h
      repeat' first
        | (cases h; try exact ⟨rfl, rfl⟩)
        | split at h

theorem headerBranch_dates (st st' : HState) (tail : String)
    (h : headerBranch st tail = .ok st') :
    (st'.pdbh_dict.deposition_date = st.pdbh_dict.deposition_date ∨
      validDateFmt st'.pdbh_dict.deposition_date = true) ∧
    st'.pdbh_dict.release_date = st.pdbh_dict.release_date := by
  unfold headerBranch at h
  simp only [bind, Except.bind, pure, Except.pure] at h
  cases hsd : searchDate tail with
  | none =>
    rw [hsd] at h
    simp only [bind, Except.bind, pure, Except.pure] at h
    cases hsi : searchIdcode tail <;> rw [hsi] at h <;>
      simp only [bind, Except.bind, pure, Except.pure] at h <;>
      (cases h; exact ⟨Or.inl rfl, rfl⟩)
  | some m =>
    rw [hsd] at h
    simp only [bind, Except.bind, pure, Except.pure] at h
    cases hf : _format_date (_nice_case m) with
    | error e =>
      rw [hf] at h
      simp only [Except.map, bind, Except.bind, pure, Except.pure] at h
      cases h
    | ok s =>
      rw [hf] at h
      simp only [Except.map, bind, Except.bind, pure, Except.pure] at h
      cases hsi : searchIdcode tail <;> rw [hsi] at h <;>
        simp only [bind, Except.bind, pure, Except.pure] at h <;>
        (cases h; exact ⟨Or.inr (format_after_search tail m s hsd hf), rfl⟩)

theorem revdatBranch_dates (st st' : HState) (tail : String)
    (h : revdatBranch st tail = .ok st') :
    st'.pdbh_dict.deposition_date = st.pdbh_dict.deposition_date ∧
    (st'.pdbh_dict.release_date = st.pdbh_dict.release_date ∨
      validDateFmt st'.pdbh_dict.release_date = true) := by
  unfold revdatBranch at h
  cases hsd : searchDate tail with
  | none =>
    rw [hsd] at h
    simp only [pure, Except.pure] at h
    cases h
    exact ⟨rfl, Or.inl rfl⟩
  | some m =>
    rw [hsd] at h
    simp only [pure, Except.pure] at h
    cases hf : _format_date (_nice_case m) with
    | error e =>
      rw [hf] at h
      simp only [Except.map] at h
      cases h
    | ok s =>
      rw [hf] at h
      simp only [Except.map] at h
      cases h
      exact ⟨rfl, Or.inr (format_after_search tail m s hsd hf)⟩

theorem stepKeyed_dates (st st' : HState) (hh key tail : String)
    (h : stepKeyed st hh key tail = .ok st') :
    (st'.pdbh_dict.deposition_date = st.pdbh_dict.deposition_date ∨
      validDateFmt st'.pdbh_dict.deposition_date = true) ∧
    (st'.pdbh_dict.release_date = st.pdbh_dict.release_date ∨
      validDateFmt st'.pdbh_dict.release_date = true) := by
  unfold stepKeyed at h
  by_cases k0 : key = "TITLE"
  · rw [if_pos k0] at h
    cases h
    exact ⟨Or.inl rfl, Or.inl rfl⟩
  rw [if_neg k0] at h
  by_cases k1 : key = "HEADER"
  · rw [if_pos k1] at h
    obtain ⟨h1, h2⟩ := headerBranch_dates _ _ _ h
    exact ⟨h1, Or.inl h2⟩
  rw [if_neg k1] at h
  by_cases k2 : key = "COMPND"
  · rw [if_pos k2] at h
    obtain ⟨h1, h2⟩ := compndBranch_dates _ _ _ h
    exact ⟨Or.inl h1, Or.inl h2⟩
  rw [if_neg k2] at h
  by_cases k3 : key = "SOURCE"
  · rw [if_pos k3] at h
    obtain ⟨h1, h2⟩ := sourceBranch_dates _ _ _ h
    exact ⟨Or.inl h1, Or.inl h2⟩
  rw [if_neg k3] at h
  by_cases k4 : key = "KEYWDS"
  · rw [if_pos k4] at h
    cases h
    exact ⟨Or.inl rfl, Or.inl rfl⟩
  rw [if_neg k4] at h
  by_cases k5 : key = "EXPDTA"
  · rw [if_pos k5] at h
    cases h
    exact ⟨Or.inl rfl, Or.inl rfl⟩
  rw [if_neg k5] at h
  by_cases k6 : key = "CAVEAT"
  · rw [if_pos k6] at h
    cases h
    exact ⟨Or.inl rfl, Or.inl rfl⟩
  rw [if_neg k6] at h
  by_cases k7 : key = "REVDAT"
  · rw [if_pos k7] at h
    obtain ⟨h1, h2⟩ := revdatBranch_dates _ _ _ h
    exact ⟨Or.inl h1, h2⟩
  rw [if_neg k7] at h
  by_cases k8 : key = "JRNL"
  · rw [if_pos k8] at h
    cases h
    exact ⟨Or.inl rfl, Or.inl rfl⟩
  rw [if_neg k8] at h
  by_cases k9 : key = "AUTHOR"
  · rw [if_pos k9] at h
    cases h
    exact ⟨Or.inl rfl, Or.inl rfl⟩
  rw [if_neg k9] at h
  by_cases k10 : key = "REMARK"
  · rw [if_pos k10] at h
    obtain ⟨h1, h2⟩ := remarkBranch_dates _ _ _ _ h
    exact ⟨Or.inl h1, Or.inl h2⟩
  rw [if_neg k10] at h
  by_cases k11 : key = "HELIX"
  · rw [if_pos k11] at h
    obtain ⟨h1, h2⟩ := helixBranch_dates _ _ _ h
    exact ⟨Or.inl h1, Or.inl h2⟩
  rw [if_neg k11] at h
  by_cases k12 : key = "SHEET"
  · rw [if_pos k12] at h
    obtain ⟨h1, h2⟩ := sheetBranch_dates _ _ _ h
    exact ⟨Or.inl h1, Or.inl h2⟩
  rw [if_neg k12] at h
  by_cases k13 : key = "SSBOND"
  · rw [if_pos k13] at h
    obtain ⟨h1, h2⟩ := ssbondBranch_dates _ _ _ h
    exact ⟨Or.inl h1, Or.inl h2⟩
  rw [if_neg k13] at h
  by_cases k14 : key = "LINK"
  · rw [if_pos k14] at h
    obtain ⟨h1, h2⟩ := linkBranch_dates _ _ _ h
    exact ⟨Or.inl h1, Or.inl h2⟩
  rw [if_neg k14] at h
  by_cases k15 : key = "CISPEP"
  · rw [if_pos k15] at h
    obtain ⟨h1, h2⟩ := cispepBranch_dates _ _ _ h
    exact ⟨Or.inl h1, Or.inl h2⟩
  rw [if_neg k15] at h
  by_cases k16 : key = "SITE"
  · rw [if_pos k16] at h
    obtain ⟨h1, h2⟩ := siteBranch_dates _ _ _ h
    exact ⟨Or.inl h1, Or.inl h2⟩
  rw [if_neg k16] at h
  cases h
  exact ⟨Or.inl rfl, Or.inl rfl⟩

theorem stepLine_dates (st st' : HState) (hh : String)
    (h : stepLine st hh = .ok st') :
    (st'.pdbh_dict.deposition_date = st.pdbh_dict.deposition_date ∨
      validDateFmt st'.pdbh_dict.deposition_date = true) ∧
    (st'.pdbh_dict.release_date = st.pdbh_dict.release_date ∨
      validDateFmt st'.pdbh_dict.release_date = true) := by
  unfold stepLine at h
  exact stepKeyed_dates _ _ _ _ _ h

theorem foldSteps_dates (lines : List String) (st stF : HState)
    (h : foldSteps st lines = .ok stF)
    (hd : validDateFmt st.pdbh_dict.deposition_date = true)
    (hr : validDateFmt st.pdbh_dict.release_date = true) :
    validDateFmt stF.pdbh_dict.deposition_date = true ∧
    validDateFmt stF.pdbh_dict.release_date = true := by
  induction lines generalizing st with
  | nil =>
    unfold foldSteps at h
    cases h
    exact ⟨hd, hr⟩
  | cons l rest ih =>
    unfold foldSteps at h
    cases hs : stepLine st l with
    | error e => rw [hs] at h; cases h
    | ok st1 =>
      rw [hs] at h
      obtain ⟨h1, h2⟩ := stepLine_dates st st1 l hs
      refine ih st1 h ?_ ?_
      · rcases h1 with he | hv
        · rw [he]; exact hd
        · exact hv
      · rcases h2 with he | hv
        · rw [he]; exact hr
        · exact hv

theorem finalFixup_dates (d : PDBHeader) :
    (finalFixup d).deposition_date = d.deposition_date ∧
    (finalFixup d).release_date = d.release_date := by
  unfold finalFixup
  repeat' split
  all_goals exact ⟨rfl, rfl⟩

/-- Claim C6, amended: whenever the parse completes, `deposition_date` and
`release_date` are digit-shaped `YYYY-MM-DD` strings (four digits, dash,
two digits, dash, two digits) — either the default `1909-01-08` or a
converted date — and in particular never the raw nine-character
`DD-MON-YY` token; a matched date token with an unrecognized month
abbreviation instead raises an uncaught error that aborts the parse (see
the counterexample). -/
theorem C6_date_format_amended (header : List String) (r : PDBHeader)
    (h : _parse_pdb_header_list header = .ok r) :
    validDateFmt r.deposition_date = true ∧
    validDateFmt r.release_date = true := by
  unfold _parse_pdb_header_list at h
  cases hf : foldSteps (initState header) header with
  | error e => rw [hf] at h; exact absurd h (by simp [Except.map])
  | ok stF =>
    rw [hf] at h
    simp only [Except.map] at h
    cases h
    have hinit_d : validDateFmt (initState header).pdbh_dict.deposition_date = true :=
      (by decide : validDateFmt "1909-01-08" = true)
    have hinit_r : validDateFmt (initState header).pdbh_dict.release_date = true :=
      (by decide : validDateFmt "1909-01-08" = true)
    obtain ⟨hd, hr⟩ := foldSteps_dates header (initState header) stF hf hinit_d hinit_r
    obtain ⟨e1, e2⟩ := finalFixup_dates stF.pdbh_dict
    rw [e1, e2]
    exact ⟨hd, hr⟩

/-- Witness for the amended claim C6 at the concrete empty header, whose
parse completes with the default dates. -/
theorem C6_date_format_amended_witness :
    validDateFmt pdbhInit.deposition_date = true ∧
    validDateFmt pdbhInit.release_date = true :=
  C6_date_format_amended [] pdbhInit rfl
